import Mathlib

/-!
# emulifx `server/lan.go`: the LAN message codec

A shallow embedding of the request decoders and the response encoders of
`server/lan.go`, and the properties of both paths.

Conventions of the embedding

* a byte is a `Fin 256`; the unsigned integers `uint16`, `uint32` are naturals
  (the decoders only assemble them from bytes, so no arithmetic wraps);
* a Go byte slice is a `Slice`: its elements and the bytes of its backing array
  that lie between its length and its capacity;
* a Go method with a pointer receiver takes the receiver's value and yields an
  `Outcome`: the receiver's value when the call returns together with the
  returned `error` (`none` is `nil`), or the receiver's value at the moment of a
  run-time panic;
* everything of package `controlifx` (header codec, colour codec, the message
  type constants, `LanHeaderSize`) is outside this repository and enters as the
  fields of a `Controlifx` value; the `MarshalBinary` methods of its scalar
  types enter as the fields of a `ControlifxMarshal` value;
* a Go method `MarshalBinary` yields an `Option`: the returned pair of bytes and
  `error`, or `none` for a run-time panic; a buffer built by `make([]byte, n)`
  has capacity `n` and is given by the list of its `n` bytes;
* a `float32` is given by its IEEE 754 bit pattern, the value that
  `math.Float32bits` returns; an `int64` is an integer.
-/

namespace server

/-! ## Go values -/

/-- One byte. -/
abbrev Byte := Fin 256

/-- Go byte slice: `elems` are the elements `s[0] .. s[len(s)-1]`, `spare` the
bytes of the backing array from `len(s)` up to `cap(s)`. -/
structure Slice where
  elems : List Byte
  spare : List Byte
deriving DecidableEq, Repr

/-- Go `len(s)`. -/
def Slice.len (s : Slice) : Nat := s.elems.length

/-- Go `cap(s)`. -/
def Slice.cap (s : Slice) : Nat := s.elems.length + s.spare.length

/-- Bytes of the backing array from the start of the slice to its capacity. -/
def Slice.backing (s : Slice) : List Byte := s.elems ++ s.spare

/-- Slice whose capacity equals its length. -/
def Slice.ofList (l : List Byte) : Slice := ⟨l, []⟩

/-- Go `s[lo:hi]`: in range when `lo ≤ hi ≤ cap(s)`; `none` is the run-time
panic "slice bounds out of range". The result keeps the rest of the backing
array as spare capacity. -/
def Slice.slice (s : Slice) (lo hi : Nat) : Option Slice :=
  if lo ≤ hi ∧ hi ≤ s.cap then
    some ⟨(s.backing.take hi).drop lo, s.backing.drop hi⟩
  else none

/-- Go `s[:hi]`. -/
def Slice.sliceTo (s : Slice) (hi : Nat) : Option Slice := s.slice 0 hi

/-- Go `s[lo:]`: the upper bound defaults to `len(s)`. -/
def Slice.sliceFrom (s : Slice) (lo : Nat) : Option Slice := s.slice lo s.len

/-- Go built-in `copy(dst, src)` on the elements: the first
`min(len(dst), len(src))` elements of `dst` are overwritten. -/
def goCopy (dst src : List Byte) : List Byte :=
  src.take dst.length ++ dst.drop src.length

/-- Go `binary.LittleEndian.Uint16(b)`:
`_ = b[1]; return uint16(b[0]) | uint16(b[1])<<8`; `none` is the index panic. -/
def LittleEndian.Uint16 (b : Slice) : Option Nat :=
  match b.elems with
  | b0 :: b1 :: _ => some ((b0.val ||| (b1.val <<< 8)) % 2 ^ 16)
  | _ => none

/-- Go `binary.LittleEndian.Uint32(b)`:
`_ = b[3]; return uint32(b[0]) | uint32(b[1])<<8 | uint32(b[2])<<16 | uint32(b[3])<<24`;
`none` is the index panic. -/
def LittleEndian.Uint32 (b : Slice) : Option Nat :=
  match b.elems with
  | b0 :: b1 :: b2 :: b3 :: _ =>
    some ((b0.val ||| (b1.val <<< 8) ||| (b2.val <<< 16) ||| (b3.val <<< 24)) % 2 ^ 32)
  | _ => none

/-- Go `bytes.TrimRight(s, "\x00")` for the one-byte cutset, that is
`trimRightByte(s, c)`: `for len(s) > 0 && s[len(s)-1] == c { s = s[:len(s)-1] }`. -/
def trimRightByte (s : List Byte) (c : Byte) : List Byte :=
  s.rdropWhile (fun b => b == c)

/-- Result of a call of a method with a pointer receiver of type `σ` returning
`error`. -/
inductive Outcome (σ ε : Type) where
  | returned (state : σ) (err : Option ε)
  | panicked (state : σ)
deriving DecidableEq, Repr

/-- Values of the `error` interface met in this package: those handed back by
the external codecs, and the one built by
`fmt.Errorf("cannot create new payload of type %d; is it binary decodable?", t)`. -/
inductive Error (E : Type) where
  | external (e : E)
  | cannotCreatePayload (t : Nat)
deriving DecidableEq, Repr

/-! ## Package `controlifx` -/

/-- What `lan.go` uses of package `controlifx`. `H` is `controlifx.LanHeader`,
`C` the type of the `Color` field, `E` the errors of its codecs.
The codecs are methods with pointer receivers: they take the receiver's value
and the bytes of the slice they are handed, and give the receiver's new value
and the returned error. -/
structure Controlifx (H C E : Type) where
  LanHeaderSize : Nat
  /-- Zero value `controlifx.LanHeader{}`. -/
  headerZero : H
  /-- Method `(*LanHeader).UnmarshalBinary`. -/
  headerUnmarshal : H → List Byte → H × Option E
  /-- Field `Header.ProtocolHeader.Type`, a `uint16`. -/
  headerType : H → Nat
  /-- Zero value of the `Color` field. -/
  colorZero : C
  /-- Method `UnmarshalBinary` of the `Color` field. -/
  colorUnmarshal : C → List Byte → C × Option E
  SetPowerType : Nat
  SetLabelType : Nat
  EchoRequestType : Nat
  LightSetColorType : Nat
  LightSetPowerType : Nat
  GetServiceType : Nat
  GetHostInfoType : Nat
  GetHostFirmwareType : Nat
  GetWifiInfoType : Nat
  GetWifiFirmwareType : Nat
  GetPowerType : Nat
  GetLabelType : Nat
  GetVersionType : Nat
  GetInfoType : Nat
  GetLocationType : Nat
  GetGroupType : Nat
  LightGetType : Nat
  LightGetPowerType : Nat

/-! ## Request payloads -/

/-- Go `controlifx.SetPowerLanMessage`: `Level PowerLevel` (a `uint16`). -/
structure setPowerLanMessage where
  Level : Nat
deriving DecidableEq, Repr

/-- Go `controlifx.SetLabelLanMessage`: `Label Label` (a `string`, kept as its bytes). -/
structure setLabelLanMessage where
  Label : List Byte
deriving DecidableEq, Repr

/-- Go `controlifx.EchoRequestLanMessage`: `Payload [64]byte`. -/
structure echoRequestLanMessage where
  Payload : List Byte
  size : Payload.length = 64
deriving DecidableEq, Repr

/-- Go `controlifx.LightSetColorLanMessage`: `Color`, `Duration uint32`. -/
structure lightSetColorLanMessage (C : Type) where
  Color : C
  Duration : Nat
deriving DecidableEq, Repr

/-- Go `controlifx.LightSetPowerLanMessage`: `Level PowerLevel`, `Duration uint32`. -/
structure lightSetPowerLanMessage where
  Level : Nat
  Duration : Nat
deriving DecidableEq, Repr

/-- Go `func (o *setPowerLanMessage) UnmarshalBinary(data []byte) error`. -/
def setPowerLanMessage.UnmarshalBinary {E : Type} (o : setPowerLanMessage) (data : Slice) :
    Outcome setPowerLanMessage (Error E) :=
  match data.sliceTo 2 with
  | none => .panicked o
  | some d =>
    match LittleEndian.Uint16 d with
    | none => .panicked o
    | some v => .returned { o with Level := v } none

/-- Go `func (o *setLabelLanMessage) UnmarshalBinary(data []byte) error`. -/
def setLabelLanMessage.UnmarshalBinary {E : Type} (o : setLabelLanMessage) (data : Slice) :
    Outcome setLabelLanMessage (Error E) :=
  match data.sliceTo 32 with
  | none => .panicked o
  | some d => .returned { o with Label := trimRightByte d.elems 0 } none

/-- Go `func (o *echoRequestLanMessage) UnmarshalBinary(data []byte) error`. -/
def echoRequestLanMessage.UnmarshalBinary {E : Type} (o : echoRequestLanMessage) (data : Slice) :
    Outcome echoRequestLanMessage (Error E) :=
  match data.sliceTo 64 with
  | none => .panicked o
  | some d =>
    .returned ⟨goCopy o.Payload d.elems, by
      have h := o.size
      simp only [goCopy, List.length_append, List.length_take, List.length_drop]
      omega⟩ none

/-- Go `func (o *lightSetColorLanMessage) UnmarshalBinary(data []byte) error`. -/
def lightSetColorLanMessage.UnmarshalBinary {H C E : Type} (X : Controlifx H C E)
    (o : lightSetColorLanMessage C) (data : Slice) :
    Outcome (lightSetColorLanMessage C) (Error E) :=
  match data.slice 1 9 with
  | none => .panicked o
  | some d =>
    match X.colorUnmarshal o.Color d.elems with
    | (c, some err) => .returned { o with Color := c } (some (.external err))
    | (c, none) =>
      match data.slice 9 13 with
      | none => .panicked { o with Color := c }
      | some d2 =>
        match LittleEndian.Uint32 d2 with
        | none => .panicked { o with Color := c }
        | some v => .returned { Color := c, Duration := v } none

/-- Go `func (o *lightSetPowerLanMessage) UnmarshalBinary(data []byte) error`. -/
def lightSetPowerLanMessage.UnmarshalBinary {E : Type} (o : lightSetPowerLanMessage)
    (data : Slice) : Outcome lightSetPowerLanMessage (Error E) :=
  match data.sliceTo 2 with
  | none => .panicked o
  | some d =>
    match LittleEndian.Uint16 d with
    | none => .panicked o
    | some v =>
      match data.slice 2 6 with
      | none => .panicked { o with Level := v }
      | some d2 =>
        match LittleEndian.Uint32 d2 with
        | none => .panicked { o with Level := v }
        | some w => .returned { Level := v, Duration := w } none

/-! ## The envelope -/

/-- Values of the interface `encoding.BinaryUnmarshaler` that
`getReceivablePayloadOfType` can build: a pointer to one of the five request
payloads. The `nil` interface is `none` of `Option (ReceivablePayload C)`. -/
inductive ReceivablePayload (C : Type) where
  | setPower (m : setPowerLanMessage)
  | setLabel (m : setLabelLanMessage)
  | echoRequest (m : echoRequestLanMessage)
  | lightSetColor (m : lightSetColorLanMessage C)
  | lightSetPower (m : lightSetPowerLanMessage)
deriving DecidableEq, Repr

/-- Go `controlifx.ReceivableLanMessage`: `Header LanHeader`,
`Payload encoding.BinaryUnmarshaler`. -/
structure receivableLanMessage (H C : Type) where
  Header : H
  Payload : Option (ReceivablePayload C)
deriving DecidableEq, Repr

/-- Zero value `echoRequestLanMessage{}`. -/
def echoRequestLanMessage.zero : echoRequestLanMessage :=
  ⟨List.replicate 64 0, List.length_replicate 64 0⟩

/-- Interface call `o.Payload.UnmarshalBinary(data)` on a non-nil payload. -/
def ReceivablePayload.UnmarshalBinary {H C E : Type} (X : Controlifx H C E)
    (p : ReceivablePayload C) (data : Slice) : Outcome (ReceivablePayload C) (Error E) :=
  match p with
  | .setPower m =>
    match m.UnmarshalBinary data with
    | .returned m1 err => .returned (.setPower m1) err
    | .panicked m1 => .panicked (.setPower m1)
  | .setLabel m =>
    match m.UnmarshalBinary data with
    | .returned m1 err => .returned (.setLabel m1) err
    | .panicked m1 => .panicked (.setLabel m1)
  | .echoRequest m =>
    match m.UnmarshalBinary data with
    | .returned m1 err => .returned (.echoRequest m1) err
    | .panicked m1 => .panicked (.echoRequest m1)
  | .lightSetColor m =>
    match m.UnmarshalBinary X data with
    | .returned m1 err => .returned (.lightSetColor m1) err
    | .panicked m1 => .panicked (.lightSetColor m1)
  | .lightSetPower m =>
    match m.UnmarshalBinary data with
    | .returned m1 err => .returned (.lightSetPower m1) err
    | .panicked m1 => .panicked (.lightSetPower m1)

/-- Go `func getReceivablePayloadOfType(t uint16) (encoding.BinaryUnmarshaler, error)`:
the switch tries its cases from top to bottom; the thirteen `fallthrough` cases
all reach `return nil, nil`. -/
def getReceivablePayloadOfType {H C E : Type} (X : Controlifx H C E) (t : Nat) :
    Option (ReceivablePayload C) × Option (Error E) :=
  if t = X.SetPowerType then (some (.setPower ⟨0⟩), none)
  else if t = X.SetLabelType then (some (.setLabel ⟨[]⟩), none)
  else if t = X.EchoRequestType then (some (.echoRequest echoRequestLanMessage.zero), none)
  else if t = X.LightSetColorType then (some (.lightSetColor ⟨X.colorZero, 0⟩), none)
  else if t = X.LightSetPowerType then (some (.lightSetPower ⟨0, 0⟩), none)
  else if t = X.GetServiceType then (none, none)
  else if t = X.GetHostInfoType then (none, none)
  else if t = X.GetHostFirmwareType then (none, none)
  else if t = X.GetWifiInfoType then (none, none)
  else if t = X.GetWifiFirmwareType then (none, none)
  else if t = X.GetPowerType then (none, none)
  else if t = X.GetLabelType then (none, none)
  else if t = X.GetVersionType then (none, none)
  else if t = X.GetInfoType then (none, none)
  else if t = X.GetLocationType then (none, none)
  else if t = X.GetGroupType then (none, none)
  else if t = X.LightGetType then (none, none)
  else if t = X.LightGetPowerType then (none, none)
  else (none, some (.cannotCreatePayload t))

/-- Go `func (o *receivableLanMessage) UnmarshalBinary(data []byte) error`. -/
def receivableLanMessage.UnmarshalBinary {H C E : Type} (X : Controlifx H C E)
    (o : receivableLanMessage H C) (data : Slice) :
    Outcome (receivableLanMessage H C) (Error E) :=
  -- o.Header = controlifx.LanHeader{}
  match data.sliceTo X.LanHeaderSize with
  | none => .panicked { o with Header := X.headerZero }
  | some hd =>
    match X.headerUnmarshal X.headerZero hd.elems with
    | (h, some err) => .returned { o with Header := h } (some (.external err))
    | (h, none) =>
      match getReceivablePayloadOfType X (X.headerType h) with
      | (_, some err) => .returned { o with Header := h } (some err)
      | (none, none) => .returned { o with Header := h } none
      | (some payload, none) =>
        -- o.Payload = payload
        match data.sliceFrom X.LanHeaderSize with
        | none => .panicked { Header := h, Payload := some payload }
        | some rest =>
          match payload.UnmarshalBinary X rest with
          | .returned p err => .returned { Header := h, Payload := some p } err
          | .panicked p => .panicked { Header := h, Payload := some p }

/-- Type codes named by the case labels of the switch in
`getReceivablePayloadOfType`: the five payload-carrying codes, then the thirteen
query codes. -/
def assignedTypes {H C E : Type} (X : Controlifx H C E) : List Nat :=
  [X.SetPowerType, X.SetLabelType, X.EchoRequestType, X.LightSetColorType,
   X.LightSetPowerType, X.GetServiceType, X.GetHostInfoType, X.GetHostFirmwareType,
   X.GetWifiInfoType, X.GetWifiFirmwareType, X.GetPowerType, X.GetLabelType,
   X.GetVersionType, X.GetInfoType, X.GetLocationType, X.GetGroupType, X.LightGetType,
   X.LightGetPowerType]

/-- The five payload-carrying codes, the labels of the cases that build a
payload. -/
def payloadTypes {H C E : Type} (X : Controlifx H C E) : List Nat :=
  [X.SetPowerType, X.SetLabelType, X.EchoRequestType, X.LightSetColorType,
   X.LightSetPowerType]

/-- The thirteen query codes, the labels of the `fallthrough` cases. -/
def queryTypes {H C E : Type} (X : Controlifx H C E) : List Nat :=
  [X.GetServiceType, X.GetHostInfoType, X.GetHostFirmwareType,
   X.GetWifiInfoType, X.GetWifiFirmwareType, X.GetPowerType, X.GetLabelType,
   X.GetVersionType, X.GetInfoType, X.GetLocationType, X.GetGroupType, X.LightGetType,
   X.LightGetPowerType]

/-! ## A concrete `controlifx` for running the decoders -/

/-- Header codec of the sample: a header is its type code, read little-endian
from bytes 32 and 33 of a 36-byte header whose first byte is not zero; any other
input is refused with error `0`. -/
def sampleHeaderUnmarshal (_ : Nat) (bs : List Byte) : Nat × Option Nat :=
  if bs.length = 36 ∧ bs.head? ≠ some 0 then
    ((bs.getD 32 0).val + 256 * (bs.getD 33 0).val, none)
  else (0, some 0)

/-- Colour codec of the sample: hue, saturation, brightness, kelvin as four
little-endian 16-bit fields; an input that is not 8 bytes or has kelvin `0` is
refused with error `1`, the receiver untouched. -/
def sampleColorUnmarshal (c : List Nat) (bs : List Byte) : List Nat × Option Nat :=
  match bs with
  | [h0, h1, s0, s1, b0, b1, k0, k1] =>
    if k0.val + 256 * k1.val = 0 then (c, some 1)
    else ([h0.val + 256 * h1.val, s0.val + 256 * s1.val, b0.val + 256 * b1.val,
           k0.val + 256 * k1.val], none)
  | _ => (c, some 1)

/-- Sample of package `controlifx`, with the message type numbers of the LIFX
LAN protocol and a 36-byte header. -/
def sample : Controlifx Nat (List Nat) Nat where
  LanHeaderSize := 36
  headerZero := 0
  headerUnmarshal := sampleHeaderUnmarshal
  headerType := fun h => h
  colorZero := [0, 0, 0, 0]
  colorUnmarshal := sampleColorUnmarshal
  SetPowerType := 21
  SetLabelType := 24
  EchoRequestType := 58
  LightSetColorType := 102
  LightSetPowerType := 117
  GetServiceType := 2
  GetHostInfoType := 12
  GetHostFirmwareType := 14
  GetWifiInfoType := 16
  GetWifiFirmwareType := 18
  GetPowerType := 20
  GetLabelType := 23
  GetVersionType := 32
  GetInfoType := 34
  GetLocationType := 48
  GetGroupType := 51
  LightGetType := 101
  LightGetPowerType := 116

/-- A 36-byte header accepted by the sample codec, with type code `t0 + 256 * t1`. -/
def sampleHeaderBytes (t0 t1 : Byte) : List Byte :=
  [36, 0, 0, 20] ++ List.replicate 28 0 ++ [t0, t1, 0, 0]

/-- A `LightSetColor` message for the sample codec: header with type code 102,
then the reserved byte `r`, colour bytes (hue `0x0102`, saturation `0x0304`,
brightness `0x0506`, kelvin `0x0DAC`) and duration `0x04030201`. -/
def sampleLightSetColor (r : Byte) : Slice :=
  Slice.ofList (sampleHeaderBytes 102 0 ++
    [r, 0x02, 0x01, 0x04, 0x03, 0x06, 0x05, 0xAC, 0x0D, 0x01, 0x02, 0x03, 0x04])

/-- A 36-byte header refused by the sample codec (first byte zero). -/
def sampleBadHeaderBytes : List Byte := List.replicate 36 0

/-! ## Response payloads -/

/-- Go conversion `byte(v)` of an unsigned value. -/
def toByte (v : Nat) : Byte := ⟨v % 256, Nat.mod_lt v (by decide)⟩

/-- Go conversion `uint64(t)` of an `int64`. -/
def toUint64 (t : Int) : Nat := (t % 2 ^ 64).toNat

/-- Go `make([]byte, n)`. -/
def makeBytes (n : Nat) : List Byte := List.replicate n 0

/-- Go `data[i] = b`; `none` is the index panic. -/
def setIndex (data : List Byte) (i : Nat) (b : Byte) : Option (List Byte) :=
  if i < data.length then some (data.set i b) else none

/-- A write `w` through the sub-slice `data[lo:hi]` of a buffer `data` whose
capacity is its length: `w` takes the elements of the sub-slice to their new
values; `none` is a run-time panic, of the slice expression or of `w`. -/
def withSlice (data : List Byte) (lo hi : Nat) (w : List Byte → Option (List Byte)) :
    Option (List Byte) :=
  if lo ≤ hi ∧ hi ≤ data.length then
    match w ((data.take hi).drop lo) with
    | some new => some (data.take lo ++ new ++ data.drop hi)
    | none => none
  else none

/-- Go `binary.LittleEndian.PutUint32(b, v)` on the elements of `b`:
`_ = b[3]; b[0] = byte(v); b[1] = byte(v >> 8); b[2] = byte(v >> 16); b[3] = byte(v >> 24)`. -/
def LittleEndian.PutUint32 (v : Nat) (b : List Byte) : Option (List Byte) :=
  match b with
  | _ :: _ :: _ :: _ :: tl =>
    some (toByte v :: toByte (v >>> 8) :: toByte (v >>> 16) :: toByte (v >>> 24) :: tl)
  | _ => none

/-- Go `binary.LittleEndian.PutUint64(b, v)` on the elements of `b`:
`_ = b[7]; b[0] = byte(v); b[1] = byte(v >> 8); ...; b[7] = byte(v >> 56)`. -/
def LittleEndian.PutUint64 (v : Nat) (b : List Byte) : Option (List Byte) :=
  match b with
  | _ :: _ :: _ :: _ :: _ :: _ :: _ :: _ :: tl =>
    some (toByte v :: toByte (v >>> 8) :: toByte (v >>> 16) :: toByte (v >>> 24) ::
      toByte (v >>> 32) :: toByte (v >>> 40) :: toByte (v >>> 48) :: toByte (v >>> 56) :: tl)
  | _ => none

/-- Go `copy(b, src)` as a write on the elements of `b`; it never panics. -/
def copyFrom (src : List Byte) (b : List Byte) : Option (List Byte) := some (goCopy b src)

/-- The `MarshalBinary` methods of the scalar types of package `controlifx`:
each gives the returned bytes and the returned error. `C` is the type of the
`Color` field, `E` the errors. -/
structure ControlifxMarshal (C E : Type) where
  /-- Method `PowerLevel.MarshalBinary`; a `PowerLevel` is a `uint16`. -/
  powerMarshal : Nat → List Byte × Option E
  /-- Method `Label.MarshalBinary`; a `Label` is a `string`. -/
  labelMarshal : List Byte → List Byte × Option E
  /-- Method `MarshalBinary` of the `Color` field. -/
  colorMarshal : C → List Byte × Option E
  /-- Method `MarshalBinary` of the `UpdatedAt` field, an `int64` time. -/
  timeMarshal : Int → List Byte × Option E

/-- Go `controlifx.StateServiceLanMessage`: `Service` (one byte wide), `Port uint32`. -/
structure stateServiceLanMessage where
  Service : Nat
  Port : Nat
deriving DecidableEq, Repr

/-- Go `controlifx.StateHostInfoLanMessage`: `Signal float32`, `Tx`, `Rx uint32`. -/
structure stateHostInfoLanMessage where
  Signal : Nat
  Tx : Nat
  Rx : Nat
deriving DecidableEq, Repr

/-- Go `controlifx.StateHostFirmwareLanMessage`: `Build uint64`, `Version uint32`. -/
structure stateHostFirmwareLanMessage where
  Build : Nat
  Version : Nat
deriving DecidableEq, Repr

/-- Go `controlifx.StateWifiInfoLanMessage`: `Signal float32`, `Tx`, `Rx uint32`. -/
structure stateWifiInfoLanMessage where
  Signal : Nat
  Tx : Nat
  Rx : Nat
deriving DecidableEq, Repr

/-- Go `controlifx.StateWifiFirmwareLanMessage`: `Build uint64`, `Version uint32`. -/
structure stateWifiFirmwareLanMessage where
  Build : Nat
  Version : Nat
deriving DecidableEq, Repr

/-- Go `controlifx.StatePowerLanMessage`: `Level PowerLevel`. -/
structure statePowerLanMessage where
  Level : Nat
deriving DecidableEq, Repr

/-- Go `controlifx.StateLabelLanMessage`: `Label Label`. -/
structure stateLabelLanMessage where
  Label : List Byte
deriving DecidableEq, Repr

/-- Go `controlifx.StateVersionLanMessage`: `Vendor`, `Product`, `Version uint32`. -/
structure stateVersionLanMessage where
  Vendor : Nat
  Product : Nat
  Version : Nat
deriving DecidableEq, Repr

/-- Go `controlifx.StateInfoLanMessage`: `Time` (an `int64`), `Uptime`, `Downtime uint64`. -/
structure stateInfoLanMessage where
  Time : Int
  Uptime : Nat
  Downtime : Nat
deriving DecidableEq, Repr

/-- Go `controlifx.StateLocationLanMessage`: `Location [16]byte`, `Label`, `UpdatedAt`. -/
structure stateLocationLanMessage where
  Location : List Byte
  size : Location.length = 16
  Label : List Byte
  UpdatedAt : Int
deriving DecidableEq, Repr

/-- Go `controlifx.StateGroupLanMessage`: `Group [16]byte`, `Label`, `UpdatedAt`. -/
structure stateGroupLanMessage where
  Group : List Byte
  size : Group.length = 16
  Label : List Byte
  UpdatedAt : Int
deriving DecidableEq, Repr

/-- Go `controlifx.EchoResponseLanMessage`: `Payload [64]byte`. -/
structure echoResponseLanMessage where
  Payload : List Byte
  size : Payload.length = 64
deriving DecidableEq, Repr

/-- Go `controlifx.LightStateLanMessage`: `Color`, `Power PowerLevel`, `Label`. -/
structure lightStateLanMessage (C : Type) where
  Color : C
  Power : Nat
  Label : List Byte
deriving DecidableEq, Repr

/-- Go `controlifx.LightStatePowerLanMessage`: `Level PowerLevel`. -/
structure lightStatePowerLanMessage where
  Level : Nat
deriving DecidableEq, Repr

/-- Go `func (o stateServiceLanMessage) MarshalBinary() (data []byte, _ error)`. -/
def stateServiceLanMessage.MarshalBinary {E : Type} (o : stateServiceLanMessage) :
    Option (List Byte × Option E) := do
  let data := makeBytes 5
  let data ← setIndex data 0 (toByte o.Service)
  let data ← withSlice data 1 data.length (LittleEndian.PutUint32 o.Port)
  pure (data, none)

/-- Go `func (o stateHostInfoLanMessage) MarshalBinary() (data []byte, _ error)`. -/
def stateHostInfoLanMessage.MarshalBinary {E : Type} (o : stateHostInfoLanMessage) :
    Option (List Byte × Option E) := do
  let data := makeBytes 12
  let data ← withSlice data 0 4 (LittleEndian.PutUint32 o.Signal)
  let data ← withSlice data 4 8 (LittleEndian.PutUint32 o.Tx)
  let data ← withSlice data 8 12 (LittleEndian.PutUint32 o.Rx)
  pure (data, none)

/-- Go `func (o stateHostFirmwareLanMessage) MarshalBinary() (data []byte, _ error)`. -/
def stateHostFirmwareLanMessage.MarshalBinary {E : Type} (o : stateHostFirmwareLanMessage) :
    Option (List Byte × Option E) := do
  let data := makeBytes 12
  let data ← withSlice data 0 8 (LittleEndian.PutUint64 o.Build)
  let data ← withSlice data 8 data.length (LittleEndian.PutUint32 o.Version)
  pure (data, none)

/-- Go `func (o stateWifiInfoLanMessage) MarshalBinary() (data []byte, _ error)`. -/
def stateWifiInfoLanMessage.MarshalBinary {E : Type} (o : stateWifiInfoLanMessage) :
    Option (List Byte × Option E) := do
  let data := makeBytes 12
  let data ← withSlice data 0 4 (LittleEndian.PutUint32 o.Signal)
  let data ← withSlice data 4 8 (LittleEndian.PutUint32 o.Tx)
  let data ← withSlice data 8 12 (LittleEndian.PutUint32 o.Rx)
  pure (data, none)

/-- Go `func (o stateWifiFirmwareLanMessage) MarshalBinary() (data []byte, _ error)`. -/
def stateWifiFirmwareLanMessage.MarshalBinary {E : Type} (o : stateWifiFirmwareLanMessage) :
    Option (List Byte × Option E) := do
  let data := makeBytes 12
  let data ← withSlice data 0 8 (LittleEndian.PutUint64 o.Build)
  let data ← withSlice data 8 data.length (LittleEndian.PutUint32 o.Version)
  pure (data, none)

/-- Go `func (o statePowerLanMessage) MarshalBinary() ([]byte, error)`. -/
def statePowerLanMessage.MarshalBinary {C E : Type} (Y : ControlifxMarshal C E)
    (o : statePowerLanMessage) : Option (List Byte × Option E) :=
  some (Y.powerMarshal o.Level)

/-- Go `func (o stateLabelLanMessage) MarshalBinary() ([]byte, error)`. -/
def stateLabelLanMessage.MarshalBinary {C E : Type} (Y : ControlifxMarshal C E)
    (o : stateLabelLanMessage) : Option (List Byte × Option E) :=
  some (Y.labelMarshal o.Label)

/-- Go `func (o stateVersionLanMessage) MarshalBinary() (data []byte, _ error)`. -/
def stateVersionLanMessage.MarshalBinary {E : Type} (o : stateVersionLanMessage) :
    Option (List Byte × Option E) := do
  let data := makeBytes 12
  let data ← withSlice data 0 4 (LittleEndian.PutUint32 o.Vendor)
  let data ← withSlice data 4 8 (LittleEndian.PutUint32 o.Product)
  let data ← withSlice data 8 data.length (LittleEndian.PutUint32 o.Version)
  pure (data, none)

/-- Go `func (o stateInfoLanMessage) MarshalBinary() (data []byte, _ error)`. -/
def stateInfoLanMessage.MarshalBinary {E : Type} (o : stateInfoLanMessage) :
    Option (List Byte × Option E) := do
  let data := makeBytes 24
  let data ← withSlice data 0 8 (LittleEndian.PutUint64 (toUint64 o.Time))
  let data ← withSlice data 8 16 (LittleEndian.PutUint64 o.Uptime)
  let data ← withSlice data 16 24 (LittleEndian.PutUint64 o.Downtime)
  pure (data, none)

/-- Go `func (o stateLocationLanMessage) MarshalBinary() (data []byte, err error)`:
on a failing scalar encoder the named results `data`, `err` are returned as
they stand. -/
def stateLocationLanMessage.MarshalBinary {C E : Type} (Y : ControlifxMarshal C E)
    (o : stateLocationLanMessage) : Option (List Byte × Option E) := do
  let data := makeBytes 56
  let data ← withSlice data 0 16 (copyFrom o.Location)
  match Y.labelMarshal o.Label with
  | (_, some err) => pure (data, some err)
  | (b, none) =>
    let data ← withSlice data 16 48 (copyFrom b)
    match Y.timeMarshal o.UpdatedAt with
    | (_, some err) => pure (data, some err)
    | (b, none) =>
      let data ← withSlice data 48 data.length (copyFrom b)
      pure (data, none)

/-- Go `func (o stateGroupLanMessage) MarshalBinary() (data []byte, err error)`. -/
def stateGroupLanMessage.MarshalBinary {C E : Type} (Y : ControlifxMarshal C E)
    (o : stateGroupLanMessage) : Option (List Byte × Option E) := do
  let data := makeBytes 56
  let data ← withSlice data 0 16 (copyFrom o.Group)
  match Y.labelMarshal o.Label with
  | (_, some err) => pure (data, some err)
  | (b, none) =>
    let data ← withSlice data 16 48 (copyFrom b)
    match Y.timeMarshal o.UpdatedAt with
    | (_, some err) => pure (data, some err)
    | (b, none) =>
      let data ← withSlice data 48 data.length (copyFrom b)
      pure (data, none)

/-- Go `func (o echoResponseLanMessage) MarshalBinary() (data []byte, _ error)`. -/
def echoResponseLanMessage.MarshalBinary {E : Type} (o : echoResponseLanMessage) :
    Option (List Byte × Option E) := do
  let data := makeBytes 64
  let data ← copyFrom o.Payload data
  pure (data, none)

/-- Go `func (o lightStateLanMessage) MarshalBinary() (data []byte, err error)`. -/
def lightStateLanMessage.MarshalBinary {C E : Type} (Y : ControlifxMarshal C E)
    (o : lightStateLanMessage C) : Option (List Byte × Option E) := do
  let data := makeBytes 44
  match Y.colorMarshal o.Color with
  | (_, some err) => pure (data, some err)
  | (b, none) =>
    let data ← withSlice data 0 8 (copyFrom b)
    match Y.powerMarshal o.Power with
    | (_, some err) => pure (data, some err)
    | (b, none) =>
      let data ← withSlice data 10 12 (copyFrom b)
      match Y.labelMarshal o.Label with
      | (_, some err) => pure (data, some err)
      | (b, none) =>
        let data ← withSlice data 12 data.length (copyFrom b)
        pure (data, none)

/-- Go `func (o lightStatePowerLanMessage) MarshalBinary() ([]byte, error)`. -/
def lightStatePowerLanMessage.MarshalBinary {C E : Type} (Y : ControlifxMarshal C E)
    (o : lightStatePowerLanMessage) : Option (List Byte × Option E) :=
  some (Y.powerMarshal o.Level)

/-- The `n` bytes of `v` in little-endian order: byte `i` is `(v / 256 ^ i) mod 256`. -/
def leBytes (n v : Nat) : List Byte := (List.range n).map fun i => toByte (v / 256 ^ i)

/-! ## Concrete scalar encoders for running the encoders -/

/-- Sample `Label.MarshalBinary`: the label zero-padded to 32 bytes; a label of
more than 32 bytes is refused with error `2`. -/
def sampleLabelMarshal (l : List Byte) : List Byte × Option Nat :=
  if l.length ≤ 32 then (l ++ List.replicate (32 - l.length) 0, none) else ([], some 2)

/-- Sample colour encoder: four little-endian 16-bit fields; a colour that does
not have four fields is refused with error `3`. -/
def sampleColorMarshal (c : List Nat) : List Byte × Option Nat :=
  match c with
  | [h, s, b, k] => (leBytes 2 h ++ leBytes 2 s ++ leBytes 2 b ++ leBytes 2 k, none)
  | _ => ([], some 3)

/-- Sample scalar encoders: power level as 2 little-endian bytes, time as the 8
little-endian bytes of its unsigned reinterpretation (a negative time is refused
with error `4`). -/
def sampleMarshal : ControlifxMarshal (List Nat) Nat where
  powerMarshal := fun v => (leBytes 2 v, none)
  labelMarshal := sampleLabelMarshal
  colorMarshal := sampleColorMarshal
  timeMarshal := fun t => if t < 0 then ([], some 4) else (leBytes 8 (toUint64 t), none)

/-! ## Lemmas on slices and little-endian reads -/

theorem Slice.slice_of_le_len (s : Slice) (lo hi : Nat) (h1 : lo ≤ hi) (h2 : hi ≤ s.len) :
    s.slice lo hi = some ⟨(s.elems.take hi).drop lo, s.elems.drop hi ++ s.spare⟩ := by
  unfold Slice.len at h2
  unfold Slice.slice Slice.cap Slice.backing
  rw [if_pos ⟨h1, by omega⟩]
  simp [List.take_append_of_le_length h2, List.drop_append_of_le_length h2]

theorem sliceFrom_of_le_len (data : Slice) (n : Nat) (h : n ≤ data.len) :
    ∃ rest : Slice, data.sliceFrom n = some rest ∧ rest.elems = data.elems.drop n := by
  have hs := Slice.slice_of_le_len data n data.len h (le_refl _)
  refine ⟨_, hs, ?_⟩
  simp [Slice.len]

theorem sliceTo_of_le_len (data : Slice) (n : Nat) (h : n ≤ data.len) :
    data.sliceTo n = some ⟨data.elems.take n, data.elems.drop n ++ data.spare⟩ := by
  have hs := Slice.slice_of_le_len data 0 n (Nat.zero_le _) h
  simpa using hs

theorem le16_eq (b0 b1 : Byte) :
    (b0.val ||| (b1.val <<< 8)) % 2 ^ 16 = b0.val + 256 * b1.val := by
  have h0 : b0.val < 2 ^ 8 := b0.isLt
  have h1 := b1.isLt
  rw [Nat.shiftLeft_eq, Nat.or_comm, Nat.mul_comm, ← Nat.mul_add_lt_is_or h0]
  omega

theorem le32_eq (b0 b1 b2 b3 : Byte) :
    (b0.val ||| (b1.val <<< 8) ||| (b2.val <<< 16) ||| (b3.val <<< 24)) % 2 ^ 32 =
      b0.val + 2 ^ 8 * b1.val + 2 ^ 16 * b2.val + 2 ^ 24 * b3.val := by
  have h0 : b0.val < 2 ^ 8 := b0.isLt
  have h1 := b1.isLt
  have h2 := b2.isLt
  have h3 := b3.isLt
  have e1 : b0.val ||| (b1.val <<< 8) = 2 ^ 8 * b1.val + b0.val := by
    rw [Nat.shiftLeft_eq, Nat.or_comm, Nat.mul_comm, ← Nat.mul_add_lt_is_or h0]
  have e2 : (2 ^ 8 * b1.val + b0.val) ||| (b2.val <<< 16)
      = 2 ^ 16 * b2.val + (2 ^ 8 * b1.val + b0.val) := by
    rw [Nat.shiftLeft_eq, Nat.or_comm, Nat.mul_comm, ← Nat.mul_add_lt_is_or (by omega)]
  have e3 : (2 ^ 16 * b2.val + (2 ^ 8 * b1.val + b0.val)) ||| (b3.val <<< 24)
      = 2 ^ 24 * b3.val + (2 ^ 16 * b2.val + (2 ^ 8 * b1.val + b0.val)) := by
    rw [Nat.shiftLeft_eq, Nat.or_comm, Nat.mul_comm, ← Nat.mul_add_lt_is_or (by omega)]
  rw [e1, e2, e3]
  omega

theorem Uint16_cons (b0 b1 : Byte) (tl sp : List Byte) :
    LittleEndian.Uint16 ⟨b0 :: b1 :: tl, sp⟩ = some (b0.val + 256 * b1.val) := by
  simp only [LittleEndian.Uint16, le16_eq]

theorem Uint32_cons (b0 b1 b2 b3 : Byte) (tl sp : List Byte) :
    LittleEndian.Uint32 ⟨b0 :: b1 :: b2 :: b3 :: tl, sp⟩ =
      some (b0.val + 2 ^ 8 * b1.val + 2 ^ 16 * b2.val + 2 ^ 24 * b3.val) := by
  simp only [LittleEndian.Uint32, le32_eq]

/-! ## The request decoders on a buffer given by its bytes -/

theorem setPower_cons {E : Type} (o : setPowerLanMessage) (b0 b1 : Byte) (tl sp : List Byte) :
    (o.UnmarshalBinary ⟨b0 :: b1 :: tl, sp⟩ : Outcome setPowerLanMessage (Error E)) =
      .returned ⟨b0.val + 256 * b1.val⟩ none := by
  have hs := Slice.slice_of_le_len ⟨b0 :: b1 :: tl, sp⟩ 0 2 (by omega)
    (by simp [Slice.len])
  simp only [List.take_succ_cons, List.take_zero, List.drop_zero] at hs
  simp only [setPowerLanMessage.UnmarshalBinary, Slice.sliceTo, hs, Uint16_cons]

theorem setLabel_of_len {E : Type} (o : setLabelLanMessage) (data : Slice)
    (h : 32 ≤ data.len) :
    (o.UnmarshalBinary data : Outcome setLabelLanMessage (Error E)) =
      .returned ⟨trimRightByte (data.elems.take 32) 0⟩ none := by
  have hs := Slice.slice_of_le_len data 0 32 (by omega) h
  simp only [List.drop_zero] at hs
  simp only [setLabelLanMessage.UnmarshalBinary, Slice.sliceTo, hs]

theorem echoRequest_of_len {E : Type} (o : echoRequestLanMessage) (data : Slice)
    (h : 64 ≤ data.len) :
    ∃ m : echoRequestLanMessage, m.Payload = data.elems.take 64 ∧
      (o.UnmarshalBinary data : Outcome echoRequestLanMessage (Error E)) =
        .returned m none := by
  have hs := Slice.slice_of_le_len data 0 64 (by omega) h
  simp only [List.drop_zero] at hs
  have hl : (data.elems.take 64).length = 64 := by
    simp only [List.length_take]
    exact Nat.min_eq_left h
  refine ⟨⟨data.elems.take 64, hl⟩, rfl, ?_⟩
  simp only [echoRequestLanMessage.UnmarshalBinary, Slice.sliceTo, hs]
  congr 2
  simp only [goCopy, o.size, hl, List.take_take, Nat.min_self]
  rw [List.drop_of_length_le (le_of_eq o.size), List.append_nil]

theorem lightSetColor_cons {H C E : Type} (X : Controlifx H C E) (o : lightSetColorLanMessage C)
    (r c0 c1 c2 c3 c4 c5 c6 c7 d0 d1 d2 d3 : Byte) (tl sp : List Byte) :
    o.UnmarshalBinary X ⟨r :: c0 :: c1 :: c2 :: c3 :: c4 :: c5 :: c6 :: c7 ::
        d0 :: d1 :: d2 :: d3 :: tl, sp⟩ =
      match X.colorUnmarshal o.Color [c0, c1, c2, c3, c4, c5, c6, c7] with
      | (c, some err) => .returned ⟨c, o.Duration⟩ (some (.external err))
      | (c, none) =>
        .returned ⟨c, d0.val + 2 ^ 8 * d1.val + 2 ^ 16 * d2.val + 2 ^ 24 * d3.val⟩ none := by
  have hs := Slice.slice_of_le_len ⟨r :: c0 :: c1 :: c2 :: c3 :: c4 :: c5 :: c6 :: c7 ::
        d0 :: d1 :: d2 :: d3 :: tl, sp⟩ 1 9 (by omega) (by simp [Slice.len])
  have hd := Slice.slice_of_le_len ⟨r :: c0 :: c1 :: c2 :: c3 :: c4 :: c5 :: c6 :: c7 ::
        d0 :: d1 :: d2 :: d3 :: tl, sp⟩ 9 13 (by omega) (by simp [Slice.len])
  simp only [List.take_succ_cons, List.take_zero, List.drop_succ_cons, List.drop_zero] at hs hd
  simp only [lightSetColorLanMessage.UnmarshalBinary, hs, hd, Uint32_cons]

theorem lightSetPower_cons {E : Type} (o : lightSetPowerLanMessage)
    (b0 b1 d0 d1 d2 d3 : Byte) (tl sp : List Byte) :
    (o.UnmarshalBinary ⟨b0 :: b1 :: d0 :: d1 :: d2 :: d3 :: tl, sp⟩ :
        Outcome lightSetPowerLanMessage (Error E)) =
      .returned ⟨b0.val + 256 * b1.val,
        d0.val + 2 ^ 8 * d1.val + 2 ^ 16 * d2.val + 2 ^ 24 * d3.val⟩ none := by
  have hs := Slice.slice_of_le_len ⟨b0 :: b1 :: d0 :: d1 :: d2 :: d3 :: tl, sp⟩ 0 2
    (by omega) (by simp [Slice.len])
  have hd := Slice.slice_of_le_len ⟨b0 :: b1 :: d0 :: d1 :: d2 :: d3 :: tl, sp⟩ 2 6
    (by omega) (by simp [Slice.len])
  simp only [List.take_succ_cons, List.take_zero, List.drop_succ_cons, List.drop_zero] at hs hd
  simp only [lightSetPowerLanMessage.UnmarshalBinary, Slice.sliceTo, hs, hd, Uint16_cons,
    Uint32_cons]

theorem setPower_of_len {E : Type} (o : setPowerLanMessage) (data : Slice) (h : 2 ≤ data.len) :
    ∃ b0 b1 : Byte, data.elems[0]? = some b0 ∧ data.elems[1]? = some b1 ∧
      (o.UnmarshalBinary data : Outcome setPowerLanMessage (Error E)) =
        .returned ⟨b0.val + 256 * b1.val⟩ none := by
  obtain ⟨_ | ⟨b0, _ | ⟨b1, tl⟩⟩, sp⟩ := data
  · simp [Slice.len] at h
  · simp [Slice.len] at h
  · exact ⟨b0, b1, by simp, by simp, setPower_cons o b0 b1 tl sp⟩

theorem lightSetPower_of_len {E : Type} (o : lightSetPowerLanMessage) (data : Slice)
    (h : 6 ≤ data.len) :
    ∃ b0 b1 d0 d1 d2 d3 : Byte, data.elems.take 6 = [b0, b1, d0, d1, d2, d3] ∧
      (o.UnmarshalBinary data : Outcome lightSetPowerLanMessage (Error E)) =
        .returned ⟨b0.val + 256 * b1.val,
          d0.val + 2 ^ 8 * d1.val + 2 ^ 16 * d2.val + 2 ^ 24 * d3.val⟩ none := by
  obtain ⟨_ | ⟨b0, _ | ⟨b1, _ | ⟨d0, _ | ⟨d1, _ | ⟨d2, _ | ⟨d3, tl⟩⟩⟩⟩⟩⟩, sp⟩ := data
  all_goals try (simp [Slice.len] at h; done)
  exact ⟨b0, b1, d0, d1, d2, d3, rfl, lightSetPower_cons o b0 b1 d0 d1 d2 d3 tl sp⟩

theorem lightSetColor_of_len {H C E : Type} (X : Controlifx H C E)
    (o : lightSetColorLanMessage C) (data : Slice) (h : 13 ≤ data.len) :
    ∃ r c0 c1 c2 c3 c4 c5 c6 c7 d0 d1 d2 d3 : Byte,
      data.elems.take 13 = [r, c0, c1, c2, c3, c4, c5, c6, c7, d0, d1, d2, d3] ∧
      o.UnmarshalBinary X data =
        match X.colorUnmarshal o.Color [c0, c1, c2, c3, c4, c5, c6, c7] with
        | (c, some err) => .returned ⟨c, o.Duration⟩ (some (.external err))
        | (c, none) =>
          .returned ⟨c, d0.val + 2 ^ 8 * d1.val + 2 ^ 16 * d2.val + 2 ^ 24 * d3.val⟩ none := by
  obtain ⟨_ | ⟨r, _ | ⟨c0, _ | ⟨c1, _ | ⟨c2, _ | ⟨c3, _ | ⟨c4, _ | ⟨c5, _ | ⟨c6, _ | ⟨c7,
    _ | ⟨d0, _ | ⟨d1, _ | ⟨d2, _ | ⟨d3, tl⟩⟩⟩⟩⟩⟩⟩⟩⟩⟩⟩⟩⟩, sp⟩ := data
  all_goals try (simp [Slice.len] at h; done)
  exact ⟨r, c0, c1, c2, c3, c4, c5, c6, c7, d0, d1, d2, d3, rfl,
    lightSetColor_cons X o r c0 c1 c2 c3 c4 c5 c6 c7 d0 d1 d2 d3 tl sp⟩

theorem lightSetColor_returns {H C E : Type} (X : Controlifx H C E)
    (o : lightSetColorLanMessage C) (data : Slice) (h : 13 ≤ data.len) :
    ∃ m err, o.UnmarshalBinary X data = .returned m err := by
  obtain ⟨r, c0, c1, c2, c3, c4, c5, c6, c7, d0, d1, d2, d3, -, he⟩ :=
    lightSetColor_of_len X o data h
  rw [he]
  rcases X.colorUnmarshal o.Color [c0, c1, c2, c3, c4, c5, c6, c7] with ⟨c, _ | e⟩
  · exact ⟨_, _, rfl⟩
  · exact ⟨_, _, rfl⟩

/-! ## A decoder reads only the first bytes of its buffer -/

theorem take_eq_of_take_eq {l xs : List Byte} {n m : Nat} (h : l.take n = xs) (hm : m ≤ n) :
    l.take m = xs.take m := by
  rw [← h, List.take_take, Nat.min_eq_left hm]

theorem sliceTo_take (data : Slice) (n : Nat) (h : n ≤ data.len) :
    ∃ d : Slice, data.sliceTo n = some d ∧ n ≤ d.len ∧ d.elems.take n = data.elems.take n := by
  refine ⟨_, sliceTo_of_le_len data n h, ?_, ?_⟩
  · unfold Slice.len at h ⊢
    simp only [List.length_take]
    omega
  · simp only [List.take_take, Nat.min_self]

theorem setPower_of_take {E : Type} (o : setPowerLanMessage) (data : Slice) (h : 2 ≤ data.len) :
    ∃ b0 b1 : Byte, data.elems.take 2 = [b0, b1] ∧
      (o.UnmarshalBinary data : Outcome setPowerLanMessage (Error E)) =
        .returned ⟨b0.val + 256 * b1.val⟩ none := by
  obtain ⟨_ | ⟨b0, _ | ⟨b1, tl⟩⟩, sp⟩ := data
  · simp [Slice.len] at h
  · simp [Slice.len] at h
  · exact ⟨b0, b1, rfl, setPower_cons o b0 b1 tl sp⟩

theorem setPower_congr {E : Type} (o : setPowerLanMessage) (data data' : Slice)
    (h : 2 ≤ data.len) (h' : 2 ≤ data'.len) (he : data'.elems.take 2 = data.elems.take 2) :
    (o.UnmarshalBinary data' : Outcome setPowerLanMessage (Error E)) =
      o.UnmarshalBinary data := by
  obtain ⟨b0, b1, ht, hd⟩ := setPower_of_take (E := E) o data h
  obtain ⟨a0, a1, ht', hd'⟩ := setPower_of_take (E := E) o data' h'
  rw [ht, ht'] at he
  injection he with e0 he
  injection he with e1 _
  rw [hd, hd', e0, e1]

theorem setLabel_congr {E : Type} (o : setLabelLanMessage) (data data' : Slice)
    (h : 32 ≤ data.len) (h' : 32 ≤ data'.len) (he : data'.elems.take 32 = data.elems.take 32) :
    (o.UnmarshalBinary data' : Outcome setLabelLanMessage (Error E)) =
      o.UnmarshalBinary data := by
  rw [setLabel_of_len o data h, setLabel_of_len o data' h', he]

theorem echoRequestLanMessage.ext_payload (m m' : echoRequestLanMessage)
    (h : m.Payload = m'.Payload) : m = m' := by
  cases m
  cases m'
  cases h
  rfl

theorem echoRequest_congr {E : Type} (o : echoRequestLanMessage) (data data' : Slice)
    (h : 64 ≤ data.len) (h' : 64 ≤ data'.len) (he : data'.elems.take 64 = data.elems.take 64) :
    (o.UnmarshalBinary data' : Outcome echoRequestLanMessage (Error E)) =
      o.UnmarshalBinary data := by
  obtain ⟨m, hm, hd⟩ := echoRequest_of_len (E := E) o data h
  obtain ⟨m', hm', hd'⟩ := echoRequest_of_len (E := E) o data' h'
  rw [hd, hd', echoRequestLanMessage.ext_payload m' m (by rw [hm, hm', he])]

theorem lightSetColor_congr {H C E : Type} (X : Controlifx H C E)
    (o : lightSetColorLanMessage C) (data data' : Slice)
    (h : 13 ≤ data.len) (h' : 13 ≤ data'.len) (he : data'.elems.take 13 = data.elems.take 13) :
    o.UnmarshalBinary X data' = o.UnmarshalBinary X data := by
  obtain ⟨r, c0, c1, c2, c3, c4, c5, c6, c7, d0, d1, d2, d3, ht, hd⟩ :=
    lightSetColor_of_len X o data h
  obtain ⟨r', a0, a1, a2, a3, a4, a5, a6, a7, e0, e1, e2, e3, ht', hd'⟩ :=
    lightSetColor_of_len X o data' h'
  rw [ht, ht'] at he
  simp only [List.cons.injEq, and_true] at he
  obtain ⟨-, rfl, rfl, rfl, rfl, rfl, rfl, rfl, rfl, rfl, rfl, rfl, rfl⟩ := he
  rw [hd, hd']

theorem lightSetPower_congr {E : Type} (o : lightSetPowerLanMessage) (data data' : Slice)
    (h : 6 ≤ data.len) (h' : 6 ≤ data'.len) (he : data'.elems.take 6 = data.elems.take 6) :
    (o.UnmarshalBinary data' : Outcome lightSetPowerLanMessage (Error E)) =
      o.UnmarshalBinary data := by
  obtain ⟨b0, b1, d0, d1, d2, d3, ht, hd⟩ := lightSetPower_of_len (E := E) o data h
  obtain ⟨a0, a1, e0, e1, e2, e3, ht', hd'⟩ := lightSetPower_of_len (E := E) o data' h'
  rw [ht, ht'] at he
  simp only [List.cons.injEq, and_true] at he
  obtain ⟨rfl, rfl, rfl, rfl, rfl, rfl⟩ := he
  rw [hd, hd']

/-! ## Trimming -/

theorem trimRightByte_split (s : List Byte) (c : Byte) :
    ∃ z : List Byte, s = trimRightByte s c ++ z ∧ (∀ b ∈ z, b = c) ∧
      (trimRightByte s c).getLast? ≠ some c := by
  induction s using List.reverseRecOn with
  | nil => exact ⟨[], by simp [trimRightByte], by simp, by simp [trimRightByte]⟩
  | append_singleton s x ih =>
    obtain ⟨z, hz, hall, hlast⟩ := ih
    by_cases hx : x = c
    · have ht : trimRightByte (s ++ [x]) c = trimRightByte s c := by
        unfold trimRightByte
        exact List.rdropWhile_concat_pos _ _ _ (by simp [hx])
      refine ⟨z ++ [x], ?_, ?_, ?_⟩
      · rw [ht, ← List.append_assoc, ← hz]
      · intro b hb
        rcases List.mem_append.mp hb with hb | hb
        · exact hall b hb
        · simpa [hx] using hb
      · rw [ht]; exact hlast
    · have ht : trimRightByte (s ++ [x]) c = s ++ [x] := by
        unfold trimRightByte
        exact List.rdropWhile_concat_neg _ _ _ (by simp [hx])
      refine ⟨[], ?_, ?_, ?_⟩
      · rw [ht, List.append_nil]
      · simp
      · rw [ht]; simp [hx]

theorem trimRightByte_longest (s p : List Byte) (c : Byte) (hp : p <+: s)
    (hlast : p.getLast? ≠ some c) : p.length ≤ (trimRightByte s c).length := by
  obtain ⟨z, hz, hall, -⟩ := trimRightByte_split s c
  by_contra hlt
  push_neg at hlt
  have hpe : p = s.take p.length := List.prefix_iff_eq_take.mp hp
  rw [hz, List.take_append_eq_append_take] at hpe
  rw [List.take_of_length_le (le_of_lt hlt)] at hpe
  set k := p.length - (trimRightByte s c).length with hk
  have hne : z.take k ≠ [] := by
    intro hnil
    rw [hnil, List.append_nil] at hpe
    rw [← hpe] at hlt
    exact lt_irrefl _ hlt
  apply hlast
  rw [hpe, List.getLast?_append_of_ne_nil _ hne, List.getLast?_eq_getLast _ hne]
  have hmem : (z.take k).getLast hne ∈ z := List.mem_of_mem_take (List.getLast_mem hne)
  rw [hall _ hmem]

theorem trimRightByte_keeps (s : List Byte) (c : Byte) (j : Nat) (b : Byte)
    (hj : s[j]? = some b) (hb : b ≠ c) : j < (trimRightByte s c).length := by
  obtain ⟨z, hz, hall, -⟩ := trimRightByte_split s c
  by_contra hge
  push_neg at hge
  rw [hz, List.getElem?_append_right hge] at hj
  exact hb (hall b (List.getElem?_mem hj))

/-! ## Lemmas on the type switch -/

theorem getReceivablePayloadOfType_unassigned {H C E : Type} (X : Controlifx H C E) (t : Nat)
    (h : t ∉ assignedTypes X) :
    getReceivablePayloadOfType X t = (none, some (.cannotCreatePayload t)) := by
  simp only [assignedTypes, List.mem_cons, List.mem_singleton, not_or, List.mem_nil_iff,
    or_false] at h
  obtain ⟨h1, h2, h3, h4, h5, h6, h7, h8, h9, h10, h11, h12, h13, h14, h15, h16, h17, h18⟩ := h
  simp [getReceivablePayloadOfType, *]

theorem getReceivablePayloadOfType_assigned {H C E : Type} (X : Controlifx H C E) (t : Nat)
    (h : t ∈ assignedTypes X) :
    (getReceivablePayloadOfType X t).2 = none := by
  unfold assignedTypes at h
  unfold getReceivablePayloadOfType
  by_cases h1 : t = X.SetPowerType
  · rw [if_pos h1]
  rw [if_neg h1]
  by_cases h2 : t = X.SetLabelType
  · rw [if_pos h2]
  rw [if_neg h2]
  by_cases h3 : t = X.EchoRequestType
  · rw [if_pos h3]
  rw [if_neg h3]
  by_cases h4 : t = X.LightSetColorType
  · rw [if_pos h4]
  rw [if_neg h4]
  by_cases h5 : t = X.LightSetPowerType
  · rw [if_pos h5]
  rw [if_neg h5]
  by_cases h6 : t = X.GetServiceType
  · rw [if_pos h6]
  rw [if_neg h6]
  by_cases h7 : t = X.GetHostInfoType
  · rw [if_pos h7]
  rw [if_neg h7]
  by_cases h8 : t = X.GetHostFirmwareType
  · rw [if_pos h8]
  rw [if_neg h8]
  by_cases h9 : t = X.GetWifiInfoType
  · rw [if_pos h9]
  rw [if_neg h9]
  by_cases h10 : t = X.GetWifiFirmwareType
  · rw [if_pos h10]
  rw [if_neg h10]
  by_cases h11 : t = X.GetPowerType
  · rw [if_pos h11]
  rw [if_neg h11]
  by_cases h12 : t = X.GetLabelType
  · rw [if_pos h12]
  rw [if_neg h12]
  by_cases h13 : t = X.GetVersionType
  · rw [if_pos h13]
  rw [if_neg h13]
  by_cases h14 : t = X.GetInfoType
  · rw [if_pos h14]
  rw [if_neg h14]
  by_cases h15 : t = X.GetLocationType
  · rw [if_pos h15]
  rw [if_neg h15]
  by_cases h16 : t = X.GetGroupType
  · rw [if_pos h16]
  rw [if_neg h16]
  by_cases h17 : t = X.LightGetType
  · rw [if_pos h17]
  rw [if_neg h17]
  by_cases h18 : t = X.LightGetPowerType
  · rw [if_pos h18]
  exfalso
  simp only [List.mem_cons, List.mem_singleton, List.mem_nil_iff, or_false] at h
  tauto

theorem assignedTypes_eq_append {H C E : Type} (X : Controlifx H C E) :
    assignedTypes X = payloadTypes X ++ queryTypes X := rfl

theorem getReceivablePayloadOfType_query {H C E : Type} (X : Controlifx H C E) (t : Nat)
    (hp : t ∉ payloadTypes X) (hq : t ∈ queryTypes X) :
    getReceivablePayloadOfType X t = (none, none) := by
  simp only [payloadTypes, List.mem_cons, List.mem_singleton, List.mem_nil_iff, or_false,
    not_or] at hp
  obtain ⟨p1, p2, p3, p4, p5⟩ := hp
  unfold queryTypes at hq
  unfold getReceivablePayloadOfType
  rw [if_neg p1, if_neg p2, if_neg p3, if_neg p4, if_neg p5]
  by_cases h6 : t = X.GetServiceType
  · rw [if_pos h6]
  rw [if_neg h6]
  by_cases h7 : t = X.GetHostInfoType
  · rw [if_pos h7]
  rw [if_neg h7]
  by_cases h8 : t = X.GetHostFirmwareType
  · rw [if_pos h8]
  rw [if_neg h8]
  by_cases h9 : t = X.GetWifiInfoType
  · rw [if_pos h9]
  rw [if_neg h9]
  by_cases h10 : t = X.GetWifiFirmwareType
  · rw [if_pos h10]
  rw [if_neg h10]
  by_cases h11 : t = X.GetPowerType
  · rw [if_pos h11]
  rw [if_neg h11]
  by_cases h12 : t = X.GetLabelType
  · rw [if_pos h12]
  rw [if_neg h12]
  by_cases h13 : t = X.GetVersionType
  · rw [if_pos h13]
  rw [if_neg h13]
  by_cases h14 : t = X.GetInfoType
  · rw [if_pos h14]
  rw [if_neg h14]
  by_cases h15 : t = X.GetLocationType
  · rw [if_pos h15]
  rw [if_neg h15]
  by_cases h16 : t = X.GetGroupType
  · rw [if_pos h16]
  rw [if_neg h16]
  by_cases h17 : t = X.LightGetType
  · rw [if_pos h17]
  rw [if_neg h17]
  by_cases h18 : t = X.LightGetPowerType
  · rw [if_pos h18]
  exfalso
  simp only [List.mem_cons, List.mem_singleton, List.mem_nil_iff, or_false] at hq
  tauto

theorem query_not_payload {H C E : Type} (X : Controlifx H C E)
    (hK : (assignedTypes X).Nodup) (t : Nat) (hq : t ∈ queryTypes X) :
    t ∉ payloadTypes X := by
  rw [assignedTypes_eq_append] at hK
  exact fun hp => List.disjoint_of_nodup_append hK hp hq

theorem getReceivablePayloadOfType_payload {H C E : Type} (X : Controlifx H C E)
    (hK : (assignedTypes X).Nodup) :
    getReceivablePayloadOfType X X.SetPowerType =
        ((some (.setPower ⟨0⟩), none) : Option (ReceivablePayload C) × Option (Error E)) ∧
    getReceivablePayloadOfType X X.SetLabelType =
        ((some (.setLabel ⟨[]⟩), none) : Option (ReceivablePayload C) × Option (Error E)) ∧
    getReceivablePayloadOfType X X.EchoRequestType =
        ((some (.echoRequest echoRequestLanMessage.zero), none) :
          Option (ReceivablePayload C) × Option (Error E)) ∧
    getReceivablePayloadOfType X X.LightSetColorType =
        ((some (.lightSetColor ⟨X.colorZero, 0⟩), none) :
          Option (ReceivablePayload C) × Option (Error E)) ∧
    getReceivablePayloadOfType X X.LightSetPowerType =
        ((some (.lightSetPower ⟨0, 0⟩), none) :
          Option (ReceivablePayload C) × Option (Error E)) := by
  rw [assignedTypes_eq_append] at hK
  have hP := List.Nodup.of_append_left hK
  simp only [payloadTypes, List.nodup_cons, List.mem_cons, List.mem_singleton, not_or,
    List.not_mem_nil, not_false_eq_true, List.nodup_nil, and_true] at hP
  obtain ⟨⟨a1, a2, a3, a4⟩, ⟨b1, b2, b3⟩, ⟨c1, c2⟩, d1⟩ := hP
  unfold getReceivablePayloadOfType
  refine ⟨?_, ?_, ?_, ?_, ?_⟩
  · rw [if_pos rfl]
  · rw [if_neg (Ne.symm a1), if_pos rfl]
  · rw [if_neg (Ne.symm a2), if_neg (Ne.symm b1), if_pos rfl]
  · rw [if_neg (Ne.symm a3), if_neg (Ne.symm b2), if_neg (Ne.symm c1), if_pos rfl]
  · rw [if_neg (Ne.symm a4), if_neg (Ne.symm b3), if_neg (Ne.symm c2), if_neg (Ne.symm d1),
      if_pos rfl]

theorem envelope_of_payload {H C E : Type} (X : Controlifx H C E)
    (o : receivableLanMessage H C) (data hd rest : Slice) (h : H) (p : ReceivablePayload C)
    (h1 : data.sliceTo X.LanHeaderSize = some hd)
    (h2 : X.headerUnmarshal X.headerZero hd.elems = (h, none))
    (hg : getReceivablePayloadOfType X (X.headerType h) = (some p, none))
    (hr : data.sliceFrom X.LanHeaderSize = some rest) :
    receivableLanMessage.UnmarshalBinary X o data =
      match p.UnmarshalBinary X rest with
      | .returned p1 err => .returned { Header := h, Payload := some p1 } err
      | .panicked p1 => .panicked { Header := h, Payload := some p1 } := by
  simp only [receivableLanMessage.UnmarshalBinary, h1, h2, hg, hr]

theorem rest_of_le_len (data : Slice) (n L : Nat) (h : n + L ≤ data.len) :
    ∃ rest : Slice, data.sliceFrom n = some rest ∧ rest.elems = data.elems.drop n ∧
      L ≤ rest.len := by
  obtain ⟨rest, hr, he⟩ := sliceFrom_of_le_len data n (by omega)
  refine ⟨rest, hr, he, ?_⟩
  unfold Slice.len at h ⊢
  rw [he, List.length_drop]
  omega

/-! ## The type dispatcher and the envelope decoder -/

/-- C1: `getReceivablePayloadOfType t` returns an error, and then no payload,
exactly when `t` is not one of the eighteen assigned codes; and on every buffer
whose header decodes with an unassigned type code the envelope decoder returns
that error without panicking and leaves the payload field as it was. -/
theorem unsupported_type_is_error {H C E : Type} (X : Controlifx H C E) :
    (∀ t : Nat,
      ((getReceivablePayloadOfType X t).2 ≠ none ↔ t ∉ assignedTypes X) ∧
      ((getReceivablePayloadOfType X t).2 ≠ none →
        getReceivablePayloadOfType X t = (none, some (.cannotCreatePayload t)))) ∧
    (∀ (o : receivableLanMessage H C) (data hd : Slice) (h : H),
      data.sliceTo X.LanHeaderSize = some hd →
      X.headerUnmarshal X.headerZero hd.elems = (h, none) →
      X.headerType h ∉ assignedTypes X →
      receivableLanMessage.UnmarshalBinary X o data =
        .returned { Header := h, Payload := o.Payload }
          (some (.cannotCreatePayload (X.headerType h)))) := by
  refine ⟨fun t => ?_, ?_⟩
  · by_cases ht : t ∈ assignedTypes X
    · have := getReceivablePayloadOfType_assigned X t ht
      simp [this, ht]
    · have := getReceivablePayloadOfType_unassigned X t ht
      simp [this, ht]
  · intro o data hd h h1 h2 h3
    simp only [receivableLanMessage.UnmarshalBinary, h1, h2,
      getReceivablePayloadOfType_unassigned X _ h3]

/-- C1 at a 36-byte buffer with type code `0xFFFF`, the envelope holding a
`SetPower` payload from an earlier decode. -/
theorem unsupported_type_is_error_witness :
    (Slice.ofList (sampleHeaderBytes 0xFF 0xFF)).sliceTo sample.LanHeaderSize =
        some (Slice.ofList (sampleHeaderBytes 0xFF 0xFF)) ∧
    sample.headerUnmarshal sample.headerZero
        (Slice.ofList (sampleHeaderBytes 0xFF 0xFF)).elems = (65535, none) ∧
    sample.headerType 65535 ∉ assignedTypes sample ∧
    receivableLanMessage.UnmarshalBinary sample ⟨0, some (.setPower ⟨7⟩)⟩
        (Slice.ofList (sampleHeaderBytes 0xFF 0xFF)) =
      .returned { Header := 65535, Payload := some (.setPower ⟨7⟩) }
        (some (.cannotCreatePayload 65535)) :=
  ⟨by decide, by decide, by decide,
   (unsupported_type_is_error sample).2 ⟨0, some (.setPower ⟨7⟩)⟩
     (Slice.ofList (sampleHeaderBytes 0xFF 0xFF)) (Slice.ofList (sampleHeaderBytes 0xFF 0xFF))
     65535 (by decide) (by decide) (by decide)⟩

/-- C2 as stated fails: on a header with the query code `GetHostInfo` (12) the
decoder returns no error, yet an envelope that held a `SetPower` payload before
the call still holds it afterwards, so the resulting payload is not empty. -/
theorem query_type_payload_not_cleared :
    sample.GetHostInfoType ∈ queryTypes sample ∧
    (Slice.ofList (sampleHeaderBytes 12 0)).sliceTo sample.LanHeaderSize =
        some (Slice.ofList (sampleHeaderBytes 12 0)) ∧
    sample.headerUnmarshal sample.headerZero (sampleHeaderBytes 12 0) =
        (sample.GetHostInfoType, none) ∧
    receivableLanMessage.UnmarshalBinary sample ⟨0, some (.setPower ⟨7⟩)⟩
        (Slice.ofList (sampleHeaderBytes 12 0)) =
      .returned { Header := 12, Payload := some (.setPower ⟨7⟩) } none ∧
    ¬ (∀ (o : receivableLanMessage Nat (List Nat)) (data hd : Slice) (h : Nat),
        data.sliceTo sample.LanHeaderSize = some hd →
        sample.headerUnmarshal sample.headerZero hd.elems = (h, none) →
        sample.headerType h ∈ queryTypes sample →
        receivableLanMessage.UnmarshalBinary sample o data =
          .returned { Header := h, Payload := none } none) := by
  refine ⟨by decide, by decide, by decide, by decide, fun hall => ?_⟩
  have h := hall ⟨0, some (.setPower ⟨7⟩)⟩ (Slice.ofList (sampleHeaderBytes 12 0))
    (Slice.ofList (sampleHeaderBytes 12 0)) 12 (by decide) (by decide) (by decide)
  revert h
  decide

/-- C2, amended: for each of the thirteen query codes, on every buffer whose
header decodes with that code and for every prior envelope, the decoder returns
no error and leaves the payload field as it was before the call; the resulting
payload is therefore empty when the envelope's payload was empty before. The
type constants are pairwise distinct, as the Go switch requires. -/
theorem query_type_keeps_payload {H C E : Type} (X : Controlifx H C E)
    (hK : (assignedTypes X).Nodup) (o : receivableLanMessage H C) (data hd : Slice) (h : H)
    (h1 : data.sliceTo X.LanHeaderSize = some hd)
    (h2 : X.headerUnmarshal X.headerZero hd.elems = (h, none))
    (h3 : X.headerType h ∈ queryTypes X) :
    receivableLanMessage.UnmarshalBinary X o data =
        .returned { Header := h, Payload := o.Payload } none ∧
    (o.Payload = none →
      receivableLanMessage.UnmarshalBinary X o data =
        .returned { Header := h, Payload := none } none) := by
  have hg := getReceivablePayloadOfType_query X _ (query_not_payload X hK _ h3) h3
  have key : receivableLanMessage.UnmarshalBinary X o data =
      .returned { Header := h, Payload := o.Payload } none := by
    simp only [receivableLanMessage.UnmarshalBinary, h1, h2, hg]
  exact ⟨key, fun hp => by rw [key, hp]⟩

/-- C2 amended, at a `GetHostInfo` header and an envelope holding a payload. -/
theorem query_type_keeps_payload_witness :
    (assignedTypes sample).Nodup ∧
    (Slice.ofList (sampleHeaderBytes 12 0)).sliceTo sample.LanHeaderSize =
        some (Slice.ofList (sampleHeaderBytes 12 0)) ∧
    sample.headerUnmarshal sample.headerZero (Slice.ofList (sampleHeaderBytes 12 0)).elems =
        (12, none) ∧
    sample.headerType 12 ∈ queryTypes sample ∧
    (receivableLanMessage.UnmarshalBinary sample ⟨0, some (.setPower ⟨7⟩)⟩
        (Slice.ofList (sampleHeaderBytes 12 0)) =
        .returned { Header := 12, Payload := some (.setPower ⟨7⟩) } none ∧
     ((some (.setPower ⟨7⟩) : Option (ReceivablePayload (List Nat))) = none →
      receivableLanMessage.UnmarshalBinary sample ⟨0, some (.setPower ⟨7⟩)⟩
        (Slice.ofList (sampleHeaderBytes 12 0)) =
        .returned { Header := 12, Payload := none } none)) :=
  ⟨by decide, by decide, by decide, by decide,
   query_type_keeps_payload sample (by decide) ⟨0, some (.setPower ⟨7⟩)⟩
     (Slice.ofList (sampleHeaderBytes 12 0)) (Slice.ofList (sampleHeaderBytes 12 0)) 12
     (by decide) (by decide) (by decide)⟩

/-- C3: for each of the five payload-carrying codes, on every buffer whose
header decodes with that code and whose remainder after the header has at least
the variant's fixed length, the envelope decoder sets the payload to a value of
the matching variant, namely the result of that variant's decoder run on a fresh
zero value and `buffer[HEADER_LEN:]`, and returns exactly the error that decoder
returned. The type constants are pairwise distinct, as the Go switch requires. -/
theorem payload_type_decodes_variant {H C E : Type} (X : Controlifx H C E)
    (hK : (assignedTypes X).Nodup) (o : receivableLanMessage H C) (data hd : Slice) (h : H)
    (h1 : data.sliceTo X.LanHeaderSize = some hd)
    (h2 : X.headerUnmarshal X.headerZero hd.elems = (h, none)) :
    (X.headerType h = X.SetPowerType → X.LanHeaderSize + 2 ≤ data.len →
      ∃ rest m err, data.sliceFrom X.LanHeaderSize = some rest ∧
        (⟨0⟩ : setPowerLanMessage).UnmarshalBinary rest = .returned m err ∧
        receivableLanMessage.UnmarshalBinary X o data =
          .returned { Header := h, Payload := some (.setPower m) } err) ∧
    (X.headerType h = X.SetLabelType → X.LanHeaderSize + 32 ≤ data.len →
      ∃ rest m err, data.sliceFrom X.LanHeaderSize = some rest ∧
        (⟨[]⟩ : setLabelLanMessage).UnmarshalBinary rest = .returned m err ∧
        receivableLanMessage.UnmarshalBinary X o data =
          .returned { Header := h, Payload := some (.setLabel m) } err) ∧
    (X.headerType h = X.EchoRequestType → X.LanHeaderSize + 64 ≤ data.len →
      ∃ rest m err, data.sliceFrom X.LanHeaderSize = some rest ∧
        echoRequestLanMessage.zero.UnmarshalBinary rest = .returned m err ∧
        receivableLanMessage.UnmarshalBinary X o data =
          .returned { Header := h, Payload := some (.echoRequest m) } err) ∧
    (X.headerType h = X.LightSetColorType → X.LanHeaderSize + 13 ≤ data.len →
      ∃ rest m err, data.sliceFrom X.LanHeaderSize = some rest ∧
        (⟨X.colorZero, 0⟩ : lightSetColorLanMessage C).UnmarshalBinary X rest =
          .returned m err ∧
        receivableLanMessage.UnmarshalBinary X o data =
          .returned { Header := h, Payload := some (.lightSetColor m) } err) ∧
    (X.headerType h = X.LightSetPowerType → X.LanHeaderSize + 6 ≤ data.len →
      ∃ rest m err, data.sliceFrom X.LanHeaderSize = some rest ∧
        (⟨0, 0⟩ : lightSetPowerLanMessage).UnmarshalBinary rest = .returned m err ∧
        receivableLanMessage.UnmarshalBinary X o data =
          .returned { Header := h, Payload := some (.lightSetPower m) } err) := by
  obtain ⟨g1, g2, g3, g4, g5⟩ := getReceivablePayloadOfType_payload X hK
  refine ⟨?_, ?_, ?_, ?_, ?_⟩
  · intro ht hlen
    obtain ⟨rest, hr, -, hL⟩ := rest_of_le_len data _ _ hlen
    obtain ⟨b0, b1, -, -, hm⟩ := setPower_of_len (E := E) ⟨0⟩ rest hL
    refine ⟨rest, _, _, hr, hm, ?_⟩
    rw [envelope_of_payload X o data hd rest h _ h1 h2 (ht ▸ g1) hr]
    simp only [ReceivablePayload.UnmarshalBinary, hm]
  · intro ht hlen
    obtain ⟨rest, hr, -, hL⟩ := rest_of_le_len data _ _ hlen
    have hm := setLabel_of_len (E := E) ⟨[]⟩ rest hL
    refine ⟨rest, _, _, hr, hm, ?_⟩
    rw [envelope_of_payload X o data hd rest h _ h1 h2 (ht ▸ g2) hr]
    simp only [ReceivablePayload.UnmarshalBinary, hm]
  · intro ht hlen
    obtain ⟨rest, hr, -, hL⟩ := rest_of_le_len data _ _ hlen
    obtain ⟨m, -, hm⟩ := echoRequest_of_len (E := E) echoRequestLanMessage.zero rest hL
    refine ⟨rest, _, _, hr, hm, ?_⟩
    rw [envelope_of_payload X o data hd rest h _ h1 h2 (ht ▸ g3) hr]
    simp only [ReceivablePayload.UnmarshalBinary, hm]
  · intro ht hlen
    obtain ⟨rest, hr, -, hL⟩ := rest_of_le_len data _ _ hlen
    obtain ⟨m, err, hm⟩ := lightSetColor_returns X ⟨X.colorZero, 0⟩ rest hL
    refine ⟨rest, _, _, hr, hm, ?_⟩
    rw [envelope_of_payload X o data hd rest h _ h1 h2 (ht ▸ g4) hr]
    simp only [ReceivablePayload.UnmarshalBinary, hm]
  · intro ht hlen
    obtain ⟨rest, hr, -, hL⟩ := rest_of_le_len data _ _ hlen
    obtain ⟨b0, b1, d0, d1, d2, d3, -, hm⟩ := lightSetPower_of_len (E := E) ⟨0, 0⟩ rest hL
    refine ⟨rest, _, _, hr, hm, ?_⟩
    rw [envelope_of_payload X o data hd rest h _ h1 h2 (ht ▸ g5) hr]
    simp only [ReceivablePayload.UnmarshalBinary, hm]

/-- C3 at a `LightSetColor` message of the sample codec: the hypotheses hold and
the envelope ends with the decoded `LightSetColor` payload. -/
theorem payload_type_decodes_variant_witness :
    (assignedTypes sample).Nodup ∧
    (sampleLightSetColor 9).sliceTo sample.LanHeaderSize =
        some ⟨sampleHeaderBytes 102 0,
          [9, 0x02, 0x01, 0x04, 0x03, 0x06, 0x05, 0xAC, 0x0D, 0x01, 0x02, 0x03, 0x04]⟩ ∧
    sample.headerUnmarshal sample.headerZero (sampleHeaderBytes 102 0) = (102, none) ∧
    sample.headerType 102 = sample.LightSetColorType ∧
    sample.LanHeaderSize + 13 ≤ (sampleLightSetColor 9).len ∧
    receivableLanMessage.UnmarshalBinary sample ⟨0, none⟩ (sampleLightSetColor 9) =
      .returned { Header := 102,
                  Payload := some (.lightSetColor ⟨[258, 772, 1286, 3500], 67305985⟩) } none ∧
    (∃ rest m err, (sampleLightSetColor 9).sliceFrom sample.LanHeaderSize = some rest ∧
      (⟨sample.colorZero, 0⟩ : lightSetColorLanMessage (List Nat)).UnmarshalBinary sample rest =
        .returned m err ∧
      receivableLanMessage.UnmarshalBinary sample ⟨0, none⟩ (sampleLightSetColor 9) =
        .returned { Header := 102, Payload := some (.lightSetColor m) } err) :=
  ⟨by decide, by decide, by decide, by decide, by decide, by decide,
   (payload_type_decodes_variant sample (by decide) ⟨0, none⟩ (sampleLightSetColor 9)
      ⟨sampleHeaderBytes 102 0,
        [9, 0x02, 0x01, 0x04, 0x03, 0x06, 0x05, 0xAC, 0x0D, 0x01, 0x02, 0x03, 0x04]⟩
      102 (by decide) (by decide)).2.2.2.1 (by decide) (by decide)⟩

/-- C4: on every buffer of at least `LanHeaderSize` bytes on which the header
decoder, run on `buffer[0:LanHeaderSize]`, fails with error `e`, the envelope
decoder returns exactly `e` and leaves the payload field as it was; the outcome
is the same whatever the type constants and the colour codec are (no type lookup
and no payload decode takes part in it); and on every such buffer the outcome
depends on the header decoder only through its result on
`buffer[0:LanHeaderSize]`. -/
theorem header_error_propagates {H C E : Type} (X : Controlifx H C E)
    (o : receivableLanMessage H C) (data : Slice) (hlen : X.LanHeaderSize ≤ data.len) :
    (∀ (h : H) (e : E),
      X.headerUnmarshal X.headerZero (data.elems.take X.LanHeaderSize) = (h, some e) →
      receivableLanMessage.UnmarshalBinary X o data =
          .returned { Header := h, Payload := o.Payload } (some (.external e)) ∧
      ∀ Y : Controlifx H C E, Y.LanHeaderSize = X.LanHeaderSize →
        Y.headerZero = X.headerZero → Y.headerUnmarshal = X.headerUnmarshal →
        receivableLanMessage.UnmarshalBinary Y o data =
          .returned { Header := h, Payload := o.Payload } (some (.external e))) ∧
    (∀ f : H → List Byte → H × Option E,
      f X.headerZero (data.elems.take X.LanHeaderSize) =
        X.headerUnmarshal X.headerZero (data.elems.take X.LanHeaderSize) →
      receivableLanMessage.UnmarshalBinary { X with headerUnmarshal := f } o data =
        receivableLanMessage.UnmarshalBinary X o data) := by
  have hs := sliceTo_of_le_len data _ hlen
  refine ⟨fun h e hfail => ⟨?_, fun Y y1 y2 y3 => ?_⟩, fun f hf => ?_⟩
  · simp only [receivableLanMessage.UnmarshalBinary, hs, hfail]
  · have hsY := hs
    rw [← y1] at hsY
    have hfY := hfail
    rw [← y1, ← y2, ← y3] at hfY
    simp only [receivableLanMessage.UnmarshalBinary, hsY, hfY]
  · simp only [receivableLanMessage.UnmarshalBinary, hs, hf]
    rfl

/-- C4 at a 36-byte header the sample codec refuses, the envelope holding a
payload from an earlier decode. -/
theorem header_error_propagates_witness :
    sample.LanHeaderSize ≤ (Slice.ofList sampleBadHeaderBytes).len ∧
    sample.headerUnmarshal sample.headerZero
        ((Slice.ofList sampleBadHeaderBytes).elems.take sample.LanHeaderSize) = (0, some 0) ∧
    receivableLanMessage.UnmarshalBinary sample ⟨5, some (.setPower ⟨7⟩)⟩
        (Slice.ofList sampleBadHeaderBytes) =
      .returned { Header := 0, Payload := some (.setPower ⟨7⟩) } (some (.external 0)) :=
  ⟨by decide, by decide,
   ((header_error_propagates sample ⟨5, some (.setPower ⟨7⟩)⟩
      (Slice.ofList sampleBadHeaderBytes) (by decide)).1 0 0 (by decide)).1⟩

/-! ## The request decoders -/

/-- C5: on every buffer of at least two bytes `setPowerLanMessage.UnmarshalBinary`
returns no error and sets `Level` to `data[0] + 256 * data[1]`; the bytes
`[0xFF, 0xFF]` give level 65535 and `[0x00, 0x00]` give level 0. -/
theorem setPower_level_little_endian {E : Type} :
    (∀ (o : setPowerLanMessage) (data : Slice), 2 ≤ data.len →
      ∃ b0 b1 : Byte, data.elems[0]? = some b0 ∧ data.elems[1]? = some b1 ∧
        (o.UnmarshalBinary data : Outcome setPowerLanMessage (Error E)) =
          .returned ⟨b0.val + 256 * b1.val⟩ none) ∧
    (∀ o : setPowerLanMessage,
      (o.UnmarshalBinary (Slice.ofList [0xFF, 0xFF]) : Outcome setPowerLanMessage (Error E)) =
        .returned ⟨65535⟩ none) ∧
    (∀ o : setPowerLanMessage,
      (o.UnmarshalBinary (Slice.ofList [0x00, 0x00]) : Outcome setPowerLanMessage (Error E)) =
        .returned ⟨0⟩ none) :=
  ⟨fun o data h => setPower_of_len o data h,
   fun o => setPower_cons o 0xFF 0xFF [] [],
   fun o => setPower_cons o 0x00 0x00 [] []⟩

/-- C5 at the three-byte buffer `[0x34, 0x12, 0xAA]`. -/
theorem setPower_level_little_endian_witness :
    2 ≤ (Slice.ofList [0x34, 0x12, 0xAA]).len ∧
    ∃ b0 b1 : Byte, (Slice.ofList [0x34, 0x12, 0xAA]).elems[0]? = some b0 ∧
      (Slice.ofList [0x34, 0x12, 0xAA]).elems[1]? = some b1 ∧
      ((⟨0⟩ : setPowerLanMessage).UnmarshalBinary (Slice.ofList [0x34, 0x12, 0xAA]) :
          Outcome setPowerLanMessage (Error Nat)) =
        .returned ⟨b0.val + 256 * b1.val⟩ none :=
  ⟨by decide,
   (setPower_level_little_endian (E := Nat)).1 ⟨0⟩ (Slice.ofList [0x34, 0x12, 0xAA])
     (by decide)⟩

/-- C6: on every buffer of at least 32 bytes `setLabelLanMessage.UnmarshalBinary`
returns no error and sets `Label` to the longest prefix of `data[0:32]` that
does not end in a zero byte: it is a prefix, it does not end in zero, every byte
cut off is zero, no prefix that does not end in zero is longer, every byte up to
a non-zero byte of the field (zero bytes included) is kept, an all-zero field
gives the empty label and a field
without zero bytes gives all 32 bytes. `"ROOM"` followed by 28 zero bytes
decodes to `"ROOM"`. -/
theorem setLabel_strips_trailing_zeros {E : Type} :
    (∀ (o : setLabelLanMessage) (data : Slice), 32 ≤ data.len →
      ∃ label : List Byte,
        (o.UnmarshalBinary data : Outcome setLabelLanMessage (Error E)) =
          .returned ⟨label⟩ none ∧
        label <+: data.elems.take 32 ∧
        label.getLast? ≠ some 0 ∧
        (∀ b ∈ (data.elems.take 32).drop label.length, b = 0) ∧
        (∀ p : List Byte, p <+: data.elems.take 32 → p.getLast? ≠ some 0 →
          p.length ≤ label.length) ∧
        (∀ (j : Nat) (b : Byte), (data.elems.take 32)[j]? = some b → b ≠ 0 →
          j < label.length ∧ ∀ i : Nat, i ≤ j → label[i]? = (data.elems.take 32)[i]?) ∧
        ((∀ b ∈ data.elems.take 32, b = 0) → label = []) ∧
        ((∀ b ∈ data.elems.take 32, b ≠ 0) → label = data.elems.take 32)) ∧
    (∀ o : setLabelLanMessage,
      (o.UnmarshalBinary (Slice.ofList ([0x52, 0x4F, 0x4F, 0x4D] ++ List.replicate 28 0)) :
          Outcome setLabelLanMessage (Error E)) =
        .returned ⟨[0x52, 0x4F, 0x4F, 0x4D]⟩ none) := by
  refine ⟨fun o data h => ?_, fun o => ?_⟩
  · obtain ⟨z, hz, hall, hlast⟩ := trimRightByte_split (data.elems.take 32) 0
    refine ⟨trimRightByte (data.elems.take 32) 0, setLabel_of_len o data h, ⟨z, hz.symm⟩,
      hlast, ?_, ?_, ?_, ?_, ?_⟩
    · intro b hb
      have hd : ∀ s t z : List Byte, s = t ++ z → s.drop t.length = z := by
        intro s t z hst
        rw [hst]
        exact List.drop_left _ _
      rw [hd _ _ _ hz] at hb
      exact hall b hb
    · exact fun p hp hl => trimRightByte_longest _ p 0 hp hl
    · intro j b hj hb
      have hlt := trimRightByte_keeps _ 0 j b hj hb
      refine ⟨hlt, fun i hi => ?_⟩
      conv_rhs => rw [hz]
      exact (List.getElem?_append_left (lt_of_le_of_lt hi hlt)).symm
    · intro hzero
      unfold trimRightByte
      rw [List.rdropWhile_eq_nil_iff]
      intro x hx
      simp [hzero x hx]
    · intro hnz
      unfold trimRightByte
      rw [List.rdropWhile_eq_self_iff]
      intro hl
      simpa using hnz _ (List.getLast_mem hl)
  · rw [setLabel_of_len o _ (by decide)]
    have : trimRightByte ((Slice.ofList ([0x52, 0x4F, 0x4F, 0x4D] ++
        List.replicate 28 0)).elems.take 32) 0 = [0x52, 0x4F, 0x4F, 0x4D] := by decide
    rw [this]

/-- C6 at a 33-byte buffer: the bytes `0x41, 0x00, 0x42`, then 29 zero bytes,
then one byte beyond the field; the label is `0x41, 0x00, 0x42`, the inner zero
kept. -/
theorem setLabel_strips_trailing_zeros_witness :
    32 ≤ (Slice.ofList ([0x41, 0x00, 0x42] ++ List.replicate 29 0 ++ [0x43])).len ∧
    ((⟨[]⟩ : setLabelLanMessage).UnmarshalBinary
        (Slice.ofList ([0x41, 0x00, 0x42] ++ List.replicate 29 0 ++ [0x43])) :
        Outcome setLabelLanMessage (Error Nat)) = .returned ⟨[0x41, 0x00, 0x42]⟩ none ∧
    ∃ label : List Byte,
      ((⟨[]⟩ : setLabelLanMessage).UnmarshalBinary
          (Slice.ofList ([0x41, 0x00, 0x42] ++ List.replicate 29 0 ++ [0x43])) :
          Outcome setLabelLanMessage (Error Nat)) = .returned ⟨label⟩ none ∧
      label <+: (Slice.ofList ([0x41, 0x00, 0x42] ++ List.replicate 29 0 ++
        [0x43])).elems.take 32 :=
  ⟨by decide, by decide,
   match (setLabel_strips_trailing_zeros (E := Nat)).1 ⟨[]⟩
      (Slice.ofList ([0x41, 0x00, 0x42] ++ List.replicate 29 0 ++ [0x43])) (by decide) with
   | ⟨label, h1, h2, _⟩ => ⟨label, h1, h2⟩⟩

/-- C7: two buffers of at least 13 bytes that agree on every byte except byte 0
give the same result of `lightSetColorLanMessage.UnmarshalBinary` (same error or
same `Color` and `Duration`); and when the colour decoder accepts `data[1:9]`,
`Color` is its result on exactly those bytes and `Duration` is
`data[9] + 2^8 * data[10] + 2^16 * data[11] + 2^24 * data[12]`. -/
theorem lightSetColor_leading_byte_ignored {H C E : Type} (X : Controlifx H C E) :
    (∀ (o : lightSetColorLanMessage C) (data data' : Slice),
      13 ≤ data.len → 13 ≤ data'.len → data.elems.tail = data'.elems.tail →
      o.UnmarshalBinary X data = o.UnmarshalBinary X data') ∧
    (∀ (o : lightSetColorLanMessage C) (data : Slice) (c : C),
      13 ≤ data.len →
      X.colorUnmarshal o.Color ((data.elems.take 9).drop 1) = (c, none) →
      ∃ d0 d1 d2 d3 : Byte, (data.elems.take 13).drop 9 = [d0, d1, d2, d3] ∧
        o.UnmarshalBinary X data =
          .returned ⟨c, d0.val + 2 ^ 8 * d1.val + 2 ^ 16 * d2.val + 2 ^ 24 * d3.val⟩ none) := by
  refine ⟨fun o data data' h h' he => ?_, fun o data c h hc => ?_⟩
  · obtain ⟨_ | ⟨r, _ | ⟨c0, _ | ⟨c1, _ | ⟨c2, _ | ⟨c3, _ | ⟨c4, _ | ⟨c5, _ | ⟨c6, _ | ⟨c7,
      _ | ⟨d0, _ | ⟨d1, _ | ⟨d2, _ | ⟨d3, tl⟩⟩⟩⟩⟩⟩⟩⟩⟩⟩⟩⟩⟩, sp⟩ := data
    all_goals try (simp [Slice.len] at h; done)
    obtain ⟨_ | ⟨r', t'⟩, sp'⟩ := data'
    · simp [Slice.len] at h'
    · simp only [List.tail_cons] at he
      subst he
      rw [lightSetColor_cons, lightSetColor_cons]
  · obtain ⟨r, c0, c1, c2, c3, c4, c5, c6, c7, d0, d1, d2, d3, ht, hd⟩ :=
      lightSetColor_of_len X o data h
    have h9 := take_eq_of_take_eq ht (show 9 ≤ 13 by omega)
    simp only [List.take_succ_cons, List.take_zero] at h9
    rw [h9] at hc
    simp only [List.drop_succ_cons, List.drop_zero] at hc
    refine ⟨d0, d1, d2, d3, by rw [ht]; rfl, ?_⟩
    rw [hd, hc]

/-- C7 at two 13-byte payloads of the sample codec that differ in byte 0 only. -/
theorem lightSetColor_leading_byte_ignored_witness :
    13 ≤ (Slice.ofList
      [0x00, 0x02, 0x01, 0x04, 0x03, 0x06, 0x05, 0xAC, 0x0D, 0x01, 0x02, 0x03, 0x04]).len ∧
    13 ≤ (Slice.ofList
      [0xFF, 0x02, 0x01, 0x04, 0x03, 0x06, 0x05, 0xAC, 0x0D, 0x01, 0x02, 0x03, 0x04]).len ∧
    (Slice.ofList
      [0x00, 0x02, 0x01, 0x04, 0x03, 0x06, 0x05, 0xAC, 0x0D, 0x01, 0x02, 0x03, 0x04]).elems.tail =
    (Slice.ofList
      [0xFF, 0x02, 0x01, 0x04, 0x03, 0x06, 0x05, 0xAC, 0x0D, 0x01, 0x02, 0x03, 0x04]).elems.tail ∧
    (⟨[0, 0, 0, 0], 0⟩ : lightSetColorLanMessage (List Nat)).UnmarshalBinary sample (Slice.ofList
      [0xFF, 0x02, 0x01, 0x04, 0x03, 0x06, 0x05, 0xAC, 0x0D, 0x01, 0x02, 0x03, 0x04]) =
      .returned ⟨[258, 772, 1286, 3500], 67305985⟩ none ∧
    (⟨[0, 0, 0, 0], 0⟩ : lightSetColorLanMessage (List Nat)).UnmarshalBinary sample (Slice.ofList
      [0x00, 0x02, 0x01, 0x04, 0x03, 0x06, 0x05, 0xAC, 0x0D, 0x01, 0x02, 0x03, 0x04]) =
    (⟨[0, 0, 0, 0], 0⟩ : lightSetColorLanMessage (List Nat)).UnmarshalBinary sample (Slice.ofList
      [0xFF, 0x02, 0x01, 0x04, 0x03, 0x06, 0x05, 0xAC, 0x0D, 0x01, 0x02, 0x03, 0x04]) :=
  ⟨by decide, by decide, by decide, by decide,
   (lightSetColor_leading_byte_ignored sample).1 ⟨[0, 0, 0, 0], 0⟩ _ _
     (by decide) (by decide) (by decide)⟩

/-- C8: on every buffer of at least six bytes
`lightSetPowerLanMessage.UnmarshalBinary` returns no error, sets `Level` to the
little-endian 16-bit value of `data[0:2]` and `Duration` to the little-endian
32-bit value of `data[2:6]`; buffers that agree on bytes 0..1 give the same
`Level` and buffers that agree on bytes 2..5 give the same `Duration`. -/
theorem lightSetPower_fields {E : Type} :
    (∀ (o : lightSetPowerLanMessage) (data : Slice), 6 ≤ data.len →
      ∃ b0 b1 d0 d1 d2 d3 : Byte, data.elems.take 6 = [b0, b1, d0, d1, d2, d3] ∧
        (o.UnmarshalBinary data : Outcome lightSetPowerLanMessage (Error E)) =
          .returned ⟨b0.val + 256 * b1.val,
            d0.val + 2 ^ 8 * d1.val + 2 ^ 16 * d2.val + 2 ^ 24 * d3.val⟩ none) ∧
    (∀ (o o' : lightSetPowerLanMessage) (data data' : Slice), 6 ≤ data.len → 6 ≤ data'.len →
      data.elems.take 2 = data'.elems.take 2 →
      ∃ m m' : lightSetPowerLanMessage,
        (o.UnmarshalBinary data : Outcome lightSetPowerLanMessage (Error E)) =
          .returned m none ∧
        (o'.UnmarshalBinary data' : Outcome lightSetPowerLanMessage (Error E)) =
          .returned m' none ∧
        m.Level = m'.Level) ∧
    (∀ (o o' : lightSetPowerLanMessage) (data data' : Slice), 6 ≤ data.len → 6 ≤ data'.len →
      (data.elems.take 6).drop 2 = (data'.elems.take 6).drop 2 →
      ∃ m m' : lightSetPowerLanMessage,
        (o.UnmarshalBinary data : Outcome lightSetPowerLanMessage (Error E)) =
          .returned m none ∧
        (o'.UnmarshalBinary data' : Outcome lightSetPowerLanMessage (Error E)) =
          .returned m' none ∧
        m.Duration = m'.Duration) := by
  refine ⟨fun o data h => lightSetPower_of_len o data h, ?_, ?_⟩
  · intro o o' data data' h h' he
    obtain ⟨b0, b1, d0, d1, d2, d3, ht, hd⟩ := lightSetPower_of_len (E := E) o data h
    obtain ⟨a0, a1, e0, e1, e2, e3, ht', hd'⟩ := lightSetPower_of_len (E := E) o' data' h'
    refine ⟨_, _, hd, hd', ?_⟩
    have t2 := take_eq_of_take_eq ht (show 2 ≤ 6 by omega)
    have t2' := take_eq_of_take_eq ht' (show 2 ≤ 6 by omega)
    rw [t2, t2'] at he
    simp only [List.take_succ_cons, List.take_zero, List.cons.injEq, and_true] at he
    obtain ⟨rfl, rfl⟩ := he
    rfl
  · intro o o' data data' h h' he
    obtain ⟨b0, b1, d0, d1, d2, d3, ht, hd⟩ := lightSetPower_of_len (E := E) o data h
    obtain ⟨a0, a1, e0, e1, e2, e3, ht', hd'⟩ := lightSetPower_of_len (E := E) o' data' h'
    refine ⟨_, _, hd, hd', ?_⟩
    rw [ht, ht'] at he
    simp only [List.drop_succ_cons, List.drop_zero, List.cons.injEq, and_true] at he
    obtain ⟨rfl, rfl, rfl, rfl⟩ := he
    rfl

/-- C8 at the seven-byte buffer `[0xFF, 0xFF, 0x00, 0x04, 0x00, 0x00, 0x99]`:
level 65535, duration 1024. -/
theorem lightSetPower_fields_witness :
    6 ≤ (Slice.ofList [0xFF, 0xFF, 0x00, 0x04, 0x00, 0x00, 0x99]).len ∧
    ((⟨1, 2⟩ : lightSetPowerLanMessage).UnmarshalBinary
        (Slice.ofList [0xFF, 0xFF, 0x00, 0x04, 0x00, 0x00, 0x99]) :
        Outcome lightSetPowerLanMessage (Error Nat)) = .returned ⟨65535, 1024⟩ none ∧
    ∃ b0 b1 d0 d1 d2 d3 : Byte,
      (Slice.ofList [0xFF, 0xFF, 0x00, 0x04, 0x00, 0x00, 0x99]).elems.take 6 =
        [b0, b1, d0, d1, d2, d3] ∧
      ((⟨1, 2⟩ : lightSetPowerLanMessage).UnmarshalBinary
          (Slice.ofList [0xFF, 0xFF, 0x00, 0x04, 0x00, 0x00, 0x99]) :
          Outcome lightSetPowerLanMessage (Error Nat)) =
        .returned ⟨b0.val + 256 * b1.val,
          d0.val + 2 ^ 8 * d1.val + 2 ^ 16 * d2.val + 2 ^ 24 * d3.val⟩ none :=
  ⟨by decide, by decide,
   (lightSetPower_fields (E := Nat)).1 ⟨1, 2⟩
     (Slice.ofList [0xFF, 0xFF, 0x00, 0x04, 0x00, 0x00, 0x99]) (by decide)⟩

/-- C9: for each request variant (SetPower 2, SetLabel 32, EchoRequest 64,
LightSetColor 13, LightSetPower 6) and every buffer of at least the variant's
length `L`, decoding `data[0:L]` gives the same outcome as decoding `data`, and
so does decoding any other buffer with the same first `L` bytes: the bytes at
index `L` and beyond affect neither the decoded value nor the error. -/
theorem decoders_ignore_trailing_bytes {H C E : Type} (X : Controlifx H C E) :
    (∀ (o : setPowerLanMessage) (data : Slice), 2 ≤ data.len →
      (∃ d : Slice, data.sliceTo 2 = some d ∧
        (o.UnmarshalBinary d : Outcome (setPowerLanMessage) (Error E)) = o.UnmarshalBinary data) ∧
      ∀ data' : Slice, 2 ≤ data'.len → data'.elems.take 2 = data.elems.take 2 →
        (o.UnmarshalBinary data' : Outcome (setPowerLanMessage) (Error E)) = o.UnmarshalBinary data) ∧
    (∀ (o : setLabelLanMessage) (data : Slice), 32 ≤ data.len →
      (∃ d : Slice, data.sliceTo 32 = some d ∧
        (o.UnmarshalBinary d : Outcome (setLabelLanMessage) (Error E)) = o.UnmarshalBinary data) ∧
      ∀ data' : Slice, 32 ≤ data'.len → data'.elems.take 32 = data.elems.take 32 →
        (o.UnmarshalBinary data' : Outcome (setLabelLanMessage) (Error E)) = o.UnmarshalBinary data) ∧
    (∀ (o : echoRequestLanMessage) (data : Slice), 64 ≤ data.len →
      (∃ d : Slice, data.sliceTo 64 = some d ∧
        (o.UnmarshalBinary d : Outcome (echoRequestLanMessage) (Error E)) = o.UnmarshalBinary data) ∧
      ∀ data' : Slice, 64 ≤ data'.len → data'.elems.take 64 = data.elems.take 64 →
        (o.UnmarshalBinary data' : Outcome (echoRequestLanMessage) (Error E)) = o.UnmarshalBinary data) ∧
    (∀ (o : lightSetColorLanMessage C) (data : Slice), 13 ≤ data.len →
      (∃ d : Slice, data.sliceTo 13 = some d ∧
        (o.UnmarshalBinary X d : Outcome (lightSetColorLanMessage C) (Error E)) = o.UnmarshalBinary X data) ∧
      ∀ data' : Slice, 13 ≤ data'.len → data'.elems.take 13 = data.elems.take 13 →
        (o.UnmarshalBinary X data' : Outcome (lightSetColorLanMessage C) (Error E)) = o.UnmarshalBinary X data) ∧
    (∀ (o : lightSetPowerLanMessage) (data : Slice), 6 ≤ data.len →
      (∃ d : Slice, data.sliceTo 6 = some d ∧
        (o.UnmarshalBinary d : Outcome (lightSetPowerLanMessage) (Error E)) = o.UnmarshalBinary data) ∧
      ∀ data' : Slice, 6 ≤ data'.len → data'.elems.take 6 = data.elems.take 6 →
        (o.UnmarshalBinary data' : Outcome (lightSetPowerLanMessage) (Error E)) = o.UnmarshalBinary data) := by
  refine ⟨?_, ?_, ?_, ?_, ?_⟩
  · intro o data h
    refine ⟨?_, fun data' h' he => setPower_congr o data data' h h' he⟩
    obtain ⟨d, hd, hl, ht⟩ := sliceTo_take data 2 h
    exact ⟨d, hd, setPower_congr o data d h hl ht⟩
  · intro o data h
    refine ⟨?_, fun data' h' he => setLabel_congr o data data' h h' he⟩
    obtain ⟨d, hd, hl, ht⟩ := sliceTo_take data 32 h
    exact ⟨d, hd, setLabel_congr o data d h hl ht⟩
  · intro o data h
    refine ⟨?_, fun data' h' he => echoRequest_congr o data data' h h' he⟩
    obtain ⟨d, hd, hl, ht⟩ := sliceTo_take data 64 h
    exact ⟨d, hd, echoRequest_congr o data d h hl ht⟩
  · intro o data h
    refine ⟨?_, fun data' h' he => lightSetColor_congr X o data data' h h' he⟩
    obtain ⟨d, hd, hl, ht⟩ := sliceTo_take data 13 h
    exact ⟨d, hd, lightSetColor_congr X o data d h hl ht⟩
  · intro o data h
    refine ⟨?_, fun data' h' he => lightSetPower_congr o data data' h h' he⟩
    obtain ⟨d, hd, hl, ht⟩ := sliceTo_take data 6 h
    exact ⟨d, hd, lightSetPower_congr o data d h hl ht⟩

/-- C9 at a `LightSetColor` payload of the sample codec followed by three more
bytes: the 16-byte buffer decodes as its first 13 bytes do. -/
theorem decoders_ignore_trailing_bytes_witness :
    13 ≤ (Slice.ofList [0x00, 0x02, 0x01, 0x04, 0x03, 0x06, 0x05, 0xAC, 0x0D, 0x01, 0x02,
      0x03, 0x04, 0xAA, 0xBB, 0xCC]).len ∧
    (⟨[0, 0, 0, 0], 0⟩ : lightSetColorLanMessage (List Nat)).UnmarshalBinary sample
      (Slice.ofList [0x00, 0x02, 0x01, 0x04, 0x03, 0x06, 0x05, 0xAC, 0x0D, 0x01, 0x02,
        0x03, 0x04, 0xAA, 0xBB, 0xCC]) = .returned ⟨[258, 772, 1286, 3500], 67305985⟩ none ∧
    (∃ d : Slice, (Slice.ofList [0x00, 0x02, 0x01, 0x04, 0x03, 0x06, 0x05, 0xAC, 0x0D, 0x01,
        0x02, 0x03, 0x04, 0xAA, 0xBB, 0xCC]).sliceTo 13 = some d ∧
      ((⟨[0, 0, 0, 0], 0⟩ : lightSetColorLanMessage (List Nat)).UnmarshalBinary sample d :
        Outcome (lightSetColorLanMessage (List Nat)) (Error Nat)) =
      (⟨[0, 0, 0, 0], 0⟩ : lightSetColorLanMessage (List Nat)).UnmarshalBinary sample
        (Slice.ofList [0x00, 0x02, 0x01, 0x04, 0x03, 0x06, 0x05, 0xAC, 0x0D, 0x01, 0x02,
          0x03, 0x04, 0xAA, 0xBB, 0xCC])) :=
  ⟨by decide, by decide,
   ((decoders_ignore_trailing_bytes sample).2.2.2.1 ⟨[0, 0, 0, 0], 0⟩
      (Slice.ofList [0x00, 0x02, 0x01, 0x04, 0x03, 0x06, 0x05, 0xAC, 0x0D, 0x01, 0x02,
        0x03, 0x04, 0xAA, 0xBB, 0xCC]) (by decide)).1⟩

/-- C10: on a buffer that meets their fixed length `SetPower`, `SetLabel`,
`EchoRequest` and `LightSetPower` return without error; `LightSetColor` returns
an error exactly when the colour decoder fails on `data[1:9]`, the error is then
the colour decoder's own and `Duration` keeps its value from before the call. -/
theorem decoder_errors_only_from_color {H C E : Type} (X : Controlifx H C E) :
    (∀ (o : setPowerLanMessage) (data : Slice), 2 ≤ data.len →
      ∃ m, (o.UnmarshalBinary data : Outcome setPowerLanMessage (Error E)) =
        .returned m none) ∧
    (∀ (o : setLabelLanMessage) (data : Slice), 32 ≤ data.len →
      ∃ m, (o.UnmarshalBinary data : Outcome setLabelLanMessage (Error E)) =
        .returned m none) ∧
    (∀ (o : echoRequestLanMessage) (data : Slice), 64 ≤ data.len →
      ∃ m, (o.UnmarshalBinary data : Outcome echoRequestLanMessage (Error E)) =
        .returned m none) ∧
    (∀ (o : lightSetPowerLanMessage) (data : Slice), 6 ≤ data.len →
      ∃ m, (o.UnmarshalBinary data : Outcome lightSetPowerLanMessage (Error E)) =
        .returned m none) ∧
    (∀ (o : lightSetColorLanMessage C) (data : Slice), 13 ≤ data.len →
      ∃ m err, o.UnmarshalBinary X data = .returned m err ∧
        (err ≠ none ↔ (X.colorUnmarshal o.Color ((data.elems.take 9).drop 1)).2 ≠ none) ∧
        (∀ e : E, (X.colorUnmarshal o.Color ((data.elems.take 9).drop 1)).2 = some e →
          err = some (.external e) ∧ m.Duration = o.Duration) ∧
        m.Color = (X.colorUnmarshal o.Color ((data.elems.take 9).drop 1)).1) := by
  refine ⟨?_, ?_, ?_, ?_, ?_⟩
  · intro o data h
    obtain ⟨b0, b1, -, hd⟩ := setPower_of_take (E := E) o data h
    exact ⟨_, hd⟩
  · intro o data h
    exact ⟨_, setLabel_of_len o data h⟩
  · intro o data h
    obtain ⟨m, -, hd⟩ := echoRequest_of_len (E := E) o data h
    exact ⟨m, hd⟩
  · intro o data h
    obtain ⟨b0, b1, d0, d1, d2, d3, -, hd⟩ := lightSetPower_of_len (E := E) o data h
    exact ⟨_, hd⟩
  · intro o data h
    obtain ⟨r, c0, c1, c2, c3, c4, c5, c6, c7, d0, d1, d2, d3, ht, hd⟩ :=
      lightSetColor_of_len X o data h
    have h9 := take_eq_of_take_eq ht (show 9 ≤ 13 by omega)
    simp only [List.take_succ_cons, List.take_zero] at h9
    rw [h9]
    simp only [List.drop_succ_cons, List.drop_zero]
    rw [hd]
    rcases X.colorUnmarshal o.Color [c0, c1, c2, c3, c4, c5, c6, c7] with ⟨c, _ | e⟩
    · exact ⟨_, _, rfl, by simp, by simp, rfl⟩
    · refine ⟨_, _, rfl, by simp, ?_, rfl⟩
      intro e' he'
      simp only [Option.some.injEq] at he'
      subst he'
      exact ⟨rfl, rfl⟩

/-- C10 at a 13-byte `LightSetColor` payload whose kelvin field is zero, which
the sample colour codec refuses with error `1`: the decoder returns that error
and `Duration` stays 77. -/
theorem decoder_errors_only_from_color_witness :
    13 ≤ (Slice.ofList
      [0x00, 0x02, 0x01, 0x04, 0x03, 0x06, 0x05, 0x00, 0x00, 0x01, 0x02, 0x03, 0x04]).len ∧
    (⟨[5, 6, 7, 8], 77⟩ : lightSetColorLanMessage (List Nat)).UnmarshalBinary sample
      (Slice.ofList
        [0x00, 0x02, 0x01, 0x04, 0x03, 0x06, 0x05, 0x00, 0x00, 0x01, 0x02, 0x03, 0x04]) =
      .returned ⟨[5, 6, 7, 8], 77⟩ (some (.external 1)) ∧
    (∃ m err, (⟨[5, 6, 7, 8], 77⟩ : lightSetColorLanMessage (List Nat)).UnmarshalBinary sample
        (Slice.ofList
          [0x00, 0x02, 0x01, 0x04, 0x03, 0x06, 0x05, 0x00, 0x00, 0x01, 0x02, 0x03, 0x04]) =
        .returned m err ∧
      (err ≠ none ↔ (sample.colorUnmarshal [5, 6, 7, 8] (((Slice.ofList
          [0x00, 0x02, 0x01, 0x04, 0x03, 0x06, 0x05, 0x00, 0x00, 0x01, 0x02, 0x03,
            0x04]).elems.take 9).drop 1)).2 ≠ none)) :=
  ⟨by decide, by decide,
   match (decoder_errors_only_from_color sample).2.2.2.2 ⟨[5, 6, 7, 8], 77⟩
      (Slice.ofList
        [0x00, 0x02, 0x01, 0x04, 0x03, 0x06, 0x05, 0x00, 0x00, 0x01, 0x02, 0x03, 0x04])
      (by decide) with
   | ⟨m, err, h1, h2, _⟩ => ⟨m, err, h1, h2⟩⟩

/-! ## Lemmas on the response encoders -/

theorem goCopy_length (dst src : List Byte) : (goCopy dst src).length = dst.length := by
  simp only [goCopy, List.length_append, List.length_take, List.length_drop]
  omega

theorem goCopy_eq_src (dst src : List Byte) (h : src.length = dst.length) :
    goCopy dst src = src := by
  unfold goCopy
  rw [List.take_of_length_le (le_of_eq h), List.drop_of_length_le (le_of_eq h.symm),
    List.append_nil]

theorem makeBytes_length (n : Nat) : (makeBytes n).length = n := by
  simp [makeBytes]

theorem withSlice_append (pre mid post : List Byte) (lo hi : Nat)
    (w : List Byte → Option (List Byte)) (hlo : pre.length = lo) (hhi : lo + mid.length = hi) :
    withSlice (pre ++ mid ++ post) lo hi w =
      (w mid).map (fun new => pre ++ new ++ post) := by
  subst hlo
  subst hhi
  unfold withSlice
  have h1 : pre.length ≤ pre.length + mid.length ∧
      pre.length + mid.length ≤ (pre ++ mid ++ post).length := by
    simp only [List.length_append]
    omega
  rw [if_pos h1]
  have t1 : (pre ++ mid ++ post).take (pre.length + mid.length) = pre ++ mid := by
    rw [← List.length_append]
    exact List.take_left _ _
  have t2 : (pre ++ mid).drop pre.length = mid := List.drop_left _ _
  have t3 : (pre ++ mid ++ post).take pre.length = pre := by
    rw [List.append_assoc]
    exact List.take_left _ _
  have t4 : (pre ++ mid ++ post).drop (pre.length + mid.length) = post := by
    rw [← List.length_append]
    exact List.drop_left _ _
  rw [t1, t2, t3, t4]
  cases w mid <;> rfl

theorem lightState_layout {C E : Type} (Y : ControlifxMarshal C E) (o : lightStateLanMessage C) :
    o.MarshalBinary Y =
      match Y.colorMarshal o.Color with
      | (_, some err) => some (makeBytes 44, some err)
      | (cb, none) =>
        match Y.powerMarshal o.Power with
        | (_, some err) => some (goCopy (makeBytes 8) cb ++ makeBytes 36, some err)
        | (pb, none) =>
          match Y.labelMarshal o.Label with
          | (_, some err) =>
            some (goCopy (makeBytes 8) cb ++ makeBytes 2 ++ goCopy (makeBytes 2) pb ++
              makeBytes 32, some err)
          | (lb, none) =>
            some (goCopy (makeBytes 8) cb ++ makeBytes 2 ++ goCopy (makeBytes 2) pb ++
              goCopy (makeBytes 32) lb, none) := by
  unfold lightStateLanMessage.MarshalBinary
  rcases Y.colorMarshal o.Color with ⟨cb, _ | e⟩
  swap
  · rfl
  have s1 : withSlice (makeBytes 44) 0 8 (copyFrom cb) =
      some (goCopy (makeBytes 8) cb ++ makeBytes 36) := by
    have := withSlice_append [] (makeBytes 8) (makeBytes 36) 0 8 (copyFrom cb) rfl
      (by simp [makeBytes_length])
    simpa [copyFrom] using this
  rcases Y.powerMarshal o.Power with ⟨pb, _ | e⟩
  swap
  · simp only [s1, bind, Option.bind, pure]
  have s2 : withSlice (goCopy (makeBytes 8) cb ++ makeBytes 36) 10 12 (copyFrom pb) =
      some (goCopy (makeBytes 8) cb ++ makeBytes 2 ++ goCopy (makeBytes 2) pb ++
        makeBytes 32) := by
    have := withSlice_append (goCopy (makeBytes 8) cb ++ makeBytes 2) (makeBytes 2)
      (makeBytes 32) 10 12 (copyFrom pb) (by simp [goCopy_length, makeBytes_length])
      (by simp [makeBytes_length])
    have e : goCopy (makeBytes 8) cb ++ makeBytes 36 =
        goCopy (makeBytes 8) cb ++ makeBytes 2 ++ makeBytes 2 ++ makeBytes 32 := by
      simp [makeBytes]
    rw [e, this]
    rfl
  rcases Y.labelMarshal o.Label with ⟨lb, _ | e⟩
  swap
  · simp only [s1, s2, bind, Option.bind, pure]
  have s3 : withSlice (goCopy (makeBytes 8) cb ++ makeBytes 2 ++ goCopy (makeBytes 2) pb ++
        makeBytes 32) 12 (goCopy (makeBytes 8) cb ++ makeBytes 2 ++ goCopy (makeBytes 2) pb ++
        makeBytes 32).length (copyFrom lb) =
      some (goCopy (makeBytes 8) cb ++ makeBytes 2 ++ goCopy (makeBytes 2) pb ++
        goCopy (makeBytes 32) lb) := by
    have := withSlice_append (goCopy (makeBytes 8) cb ++ makeBytes 2 ++ goCopy (makeBytes 2) pb)
      (makeBytes 32) [] 12 (goCopy (makeBytes 8) cb ++ makeBytes 2 ++ goCopy (makeBytes 2) pb ++
        makeBytes 32).length (copyFrom lb) (by simp [goCopy_length, makeBytes_length])
      (by simp [goCopy_length, makeBytes_length])
    rw [List.append_nil] at this
    rw [this]
    simp only [copyFrom, Option.map_some', List.append_nil]
  simp only [s1, s2, s3, bind, Option.bind, pure]

theorem location_layout_aux {E : Type} (loc : List Byte) (hloc : loc.length = 16)
    (lr tr : List Byte × Option E) :
    (do
      let data := makeBytes 56
      let data ← withSlice data 0 16 (copyFrom loc)
      match lr with
      | (_, some err) => pure (data, some err)
      | (b, none) =>
        let data ← withSlice data 16 48 (copyFrom b)
        match tr with
        | (_, some err) => pure (data, some err)
        | (b, none) =>
          let data ← withSlice data 48 data.length (copyFrom b)
          pure (data, none) : Option (List Byte × Option E)) =
      match lr with
      | (_, some err) => some (loc ++ makeBytes 40, some err)
      | (lb, none) =>
        match tr with
        | (_, some err) => some (loc ++ goCopy (makeBytes 32) lb ++ makeBytes 8, some err)
        | (tb, none) =>
          some (loc ++ goCopy (makeBytes 32) lb ++ goCopy (makeBytes 8) tb, none) := by
  have s1 : withSlice (makeBytes 56) 0 16 (copyFrom loc) = some (loc ++ makeBytes 40) := by
    have := withSlice_append [] (makeBytes 16) (makeBytes 40) 0 16 (copyFrom loc) rfl
      (by simp [makeBytes_length])
    have e : makeBytes 56 = [] ++ makeBytes 16 ++ makeBytes 40 := by simp [makeBytes]
    rw [e, this]
    simp only [copyFrom, Option.map_some', List.nil_append,
      goCopy_eq_src _ _ (hloc.trans (makeBytes_length 16).symm)]
  rcases lr with ⟨lb, _ | e⟩
  swap
  · simp only [s1, bind, Option.bind, pure]
  have s2 : withSlice (loc ++ makeBytes 40) 16 48 (copyFrom lb) =
      some (loc ++ goCopy (makeBytes 32) lb ++ makeBytes 8) := by
    have := withSlice_append loc (makeBytes 32) (makeBytes 8) 16 48 (copyFrom lb) hloc
      (by simp [makeBytes_length])
    have e : loc ++ makeBytes 40 = loc ++ makeBytes 32 ++ makeBytes 8 := by simp [makeBytes]
    rw [e, this]
    rfl
  rcases tr with ⟨tb, _ | e⟩
  swap
  · simp only [s1, s2, bind, Option.bind, pure]
  have s3 : withSlice (loc ++ goCopy (makeBytes 32) lb ++ makeBytes 8) 48
        (loc ++ goCopy (makeBytes 32) lb ++ makeBytes 8).length (copyFrom tb) =
      some (loc ++ goCopy (makeBytes 32) lb ++ goCopy (makeBytes 8) tb) := by
    have := withSlice_append (loc ++ goCopy (makeBytes 32) lb) (makeBytes 8) [] 48
      (loc ++ goCopy (makeBytes 32) lb ++ makeBytes 8).length (copyFrom tb)
      (by simp [goCopy_length, makeBytes_length, hloc])
      (by simp [goCopy_length, makeBytes_length, hloc])
    rw [List.append_nil] at this
    rw [this]
    simp only [copyFrom, Option.map_some', List.append_nil]
  simp only [s1, s2, s3, bind, Option.bind, pure]

theorem stateLocation_layout {C E : Type} (Y : ControlifxMarshal C E)
    (o : stateLocationLanMessage) :
    o.MarshalBinary Y =
      match Y.labelMarshal o.Label with
      | (_, some err) => some (o.Location ++ makeBytes 40, some err)
      | (lb, none) =>
        match Y.timeMarshal o.UpdatedAt with
        | (_, some err) =>
          some (o.Location ++ goCopy (makeBytes 32) lb ++ makeBytes 8, some err)
        | (tb, none) =>
          some (o.Location ++ goCopy (makeBytes 32) lb ++ goCopy (makeBytes 8) tb, none) :=
  location_layout_aux o.Location o.size _ _

theorem stateGroup_layout {C E : Type} (Y : ControlifxMarshal C E)
    (o : stateGroupLanMessage) :
    o.MarshalBinary Y =
      match Y.labelMarshal o.Label with
      | (_, some err) => some (o.Group ++ makeBytes 40, some err)
      | (lb, none) =>
        match Y.timeMarshal o.UpdatedAt with
        | (_, some err) =>
          some (o.Group ++ goCopy (makeBytes 32) lb ++ makeBytes 8, some err)
        | (tb, none) =>
          some (o.Group ++ goCopy (makeBytes 32) lb ++ goCopy (makeBytes 8) tb, none) :=
  location_layout_aux o.Group o.size _ _

theorem stateService_bytes {E : Type} (o : stateServiceLanMessage) :
    (o.MarshalBinary : Option (List Byte × Option E)) =
      some ([toByte o.Service, toByte o.Port, toByte (o.Port >>> 8), toByte (o.Port >>> 16),
        toByte (o.Port >>> 24)], none) := rfl

theorem stateHostInfo_bytes {E : Type} (o : stateHostInfoLanMessage) :
    (o.MarshalBinary : Option (List Byte × Option E)) =
      some ([toByte o.Signal, toByte (o.Signal >>> 8), toByte (o.Signal >>> 16),
        toByte (o.Signal >>> 24), toByte o.Tx, toByte (o.Tx >>> 8), toByte (o.Tx >>> 16),
        toByte (o.Tx >>> 24), toByte o.Rx, toByte (o.Rx >>> 8), toByte (o.Rx >>> 16),
        toByte (o.Rx >>> 24)], none) := rfl

theorem stateWifiInfo_bytes {E : Type} (o : stateWifiInfoLanMessage) :
    (o.MarshalBinary : Option (List Byte × Option E)) =
      some ([toByte o.Signal, toByte (o.Signal >>> 8), toByte (o.Signal >>> 16),
        toByte (o.Signal >>> 24), toByte o.Tx, toByte (o.Tx >>> 8), toByte (o.Tx >>> 16),
        toByte (o.Tx >>> 24), toByte o.Rx, toByte (o.Rx >>> 8), toByte (o.Rx >>> 16),
        toByte (o.Rx >>> 24)], none) := rfl

theorem stateVersion_bytes {E : Type} (o : stateVersionLanMessage) :
    (o.MarshalBinary : Option (List Byte × Option E)) =
      some ([toByte o.Vendor, toByte (o.Vendor >>> 8), toByte (o.Vendor >>> 16),
        toByte (o.Vendor >>> 24), toByte o.Product, toByte (o.Product >>> 8),
        toByte (o.Product >>> 16), toByte (o.Product >>> 24), toByte o.Version,
        toByte (o.Version >>> 8), toByte (o.Version >>> 16), toByte (o.Version >>> 24)],
        none) := rfl

theorem stateHostFirmware_bytes {E : Type} (o : stateHostFirmwareLanMessage) :
    (o.MarshalBinary : Option (List Byte × Option E)) =
      some ([toByte o.Build, toByte (o.Build >>> 8), toByte (o.Build >>> 16),
        toByte (o.Build >>> 24), toByte (o.Build >>> 32), toByte (o.Build >>> 40),
        toByte (o.Build >>> 48), toByte (o.Build >>> 56), toByte o.Version,
        toByte (o.Version >>> 8), toByte (o.Version >>> 16), toByte (o.Version >>> 24)],
        none) := rfl

theorem stateWifiFirmware_bytes {E : Type} (o : stateWifiFirmwareLanMessage) :
    (o.MarshalBinary : Option (List Byte × Option E)) =
      some ([toByte o.Build, toByte (o.Build >>> 8), toByte (o.Build >>> 16),
        toByte (o.Build >>> 24), toByte (o.Build >>> 32), toByte (o.Build >>> 40),
        toByte (o.Build >>> 48), toByte (o.Build >>> 56), toByte o.Version,
        toByte (o.Version >>> 8), toByte (o.Version >>> 16), toByte (o.Version >>> 24)],
        none) := rfl

theorem le8 (v : Nat) :
    [toByte v, toByte (v >>> 8), toByte (v >>> 16), toByte (v >>> 24), toByte (v >>> 32),
      toByte (v >>> 40), toByte (v >>> 48), toByte (v >>> 56)] = leBytes 8 v := by
  have h : leBytes 8 v = [toByte (v / 256 ^ 0), toByte (v / 256 ^ 1), toByte (v / 256 ^ 2),
      toByte (v / 256 ^ 3), toByte (v / 256 ^ 4), toByte (v / 256 ^ 5), toByte (v / 256 ^ 6),
      toByte (v / 256 ^ 7)] := rfl
  rw [h]
  simp only [Nat.shiftRight_eq_div_pow]
  norm_num

theorem le4 (v : Nat) :
    [toByte v, toByte (v >>> 8), toByte (v >>> 16), toByte (v >>> 24)] = leBytes 4 v := by
  have h : leBytes 4 v = [toByte (v / 256 ^ 0), toByte (v / 256 ^ 1), toByte (v / 256 ^ 2),
      toByte (v / 256 ^ 3)] := rfl
  rw [h]
  simp only [Nat.shiftRight_eq_div_pow]
  norm_num

theorem stateInfo_bytes {E : Type} (o : stateInfoLanMessage) :
    (o.MarshalBinary : Option (List Byte × Option E)) =
      some (leBytes 8 (toUint64 o.Time) ++ leBytes 8 o.Uptime ++ leBytes 8 o.Downtime,
        none) := by
  rw [← le8, ← le8, ← le8]
  rfl

theorem echoResponse_bytes {E : Type} (o : echoResponseLanMessage) :
    (o.MarshalBinary : Option (List Byte × Option E)) = some (o.Payload, none) := by
  have h : goCopy (makeBytes 64) o.Payload = o.Payload :=
    goCopy_eq_src _ _ (o.size.trans (makeBytes_length 64).symm)
  simp only [echoResponseLanMessage.MarshalBinary, copyFrom, h, bind, Option.bind, pure]

theorem gap_zero (g rest : List Byte) (h : g.length = 8) :
    (g ++ makeBytes 2 ++ rest)[8]? = some 0 ∧ (g ++ makeBytes 2 ++ rest)[9]? = some 0 := by
  rw [List.append_assoc]
  constructor
  · rw [List.getElem?_append_right (by omega), h]
    simp [makeBytes, List.replicate]
  · rw [List.getElem?_append_right (by omega), h]
    simp [makeBytes, List.replicate]

theorem toByte_val (v : Nat) : (toByte v).val = v % 256 := rfl

theorem le32_recover (p : Nat) (hp : p < 2 ^ 32) :
    LittleEndian.Uint32 (Slice.ofList [toByte p, toByte (p >>> 8), toByte (p >>> 16),
      toByte (p >>> 24)]) = some p := by
  unfold Slice.ofList
  rw [Uint32_cons]
  simp only [toByte_val, Nat.shiftRight_eq_div_pow]
  congr 1
  omega

theorem toUint64_cast (t : Int) : ((toUint64 t : Nat) : Int) = t % 2 ^ 64 := by
  unfold toUint64
  exact Int.toNat_of_nonneg (Int.emod_nonneg _ (by norm_num))

theorem leBytes_length (n v : Nat) : (leBytes n v).length = n := by
  simp [leBytes]

theorem goCopy_makeBytes (n : Nat) (b : List Byte) :
    goCopy (makeBytes n) b = b.take n ++ List.replicate (n - b.length) 0 := by
  simp only [goCopy, makeBytes, List.length_replicate, List.drop_replicate]

theorem leBytes_two (b0 b1 : Byte) : leBytes 2 (b0.val + 256 * b1.val) = [b0, b1] := by
  have h : leBytes 2 (b0.val + 256 * b1.val) =
      [toByte ((b0.val + 256 * b1.val) / 256 ^ 0), toByte ((b0.val + 256 * b1.val) / 256 ^ 1)] :=
    rfl
  rw [h]
  have h0 := b0.isLt
  have h1 := b1.isLt
  congr 1
  · apply Fin.ext
    rw [toByte_val]
    omega
  · congr 1
    apply Fin.ext
    rw [toByte_val]
    omega

theorem take_append_len (a b : List Byte) (n : Nat) (h : a.length = n) :
    (a ++ b).take n = a := by
  subst h
  exact List.take_left _ _

theorem drop_append_len (a b : List Byte) (n : Nat) (h : a.length = n) :
    (a ++ b).drop n = b := by
  subst h
  exact List.drop_left _ _

theorem Slice.slice_of_cap_lt (s : Slice) (lo hi : Nat) (h : s.cap < hi) :
    s.slice lo hi = none := by
  unfold Slice.slice
  rw [if_neg (by omega)]

theorem Slice.slice_of_le_cap (s : Slice) (lo hi : Nat) (h1 : lo ≤ hi) (h2 : hi ≤ s.cap) :
    s.slice lo hi = some ⟨(s.backing.take hi).drop lo, s.backing.drop hi⟩ := by
  unfold Slice.slice
  rw [if_pos ⟨h1, h2⟩]

theorem Slice.backing_length (s : Slice) : s.backing.length = s.cap := by
  simp only [Slice.backing, Slice.cap, List.length_append]

/-! ## The response encoders -/

/-- C11: every response encoder gives its declared number of bytes: StateService
5; StateHostInfo, StateHostFirmware, StateWifiInfo, StateWifiFirmware and
StateVersion 12; StateInfo 24; EchoResponse 64; StateLocation and StateGroup 56
and LightState 44, the last three whatever the scalar encoders return (and
without a panic); StatePower, LightStatePower and StateLabel return exactly what
the PowerLevel or Label encoder returns, hence 2 and 32 bytes when those
encoders give 2 and 32 bytes. -/
theorem marshal_fixed_lengths {C E : Type} (Y : ControlifxMarshal C E) :
    (∀ o : stateServiceLanMessage, ∃ data,
      (o.MarshalBinary : Option (List Byte × Option E)) = some (data, none) ∧
        data.length = 5) ∧
    (∀ o : stateHostInfoLanMessage, ∃ data,
      (o.MarshalBinary : Option (List Byte × Option E)) = some (data, none) ∧
        data.length = 12) ∧
    (∀ o : stateHostFirmwareLanMessage, ∃ data,
      (o.MarshalBinary : Option (List Byte × Option E)) = some (data, none) ∧
        data.length = 12) ∧
    (∀ o : stateWifiInfoLanMessage, ∃ data,
      (o.MarshalBinary : Option (List Byte × Option E)) = some (data, none) ∧
        data.length = 12) ∧
    (∀ o : stateWifiFirmwareLanMessage, ∃ data,
      (o.MarshalBinary : Option (List Byte × Option E)) = some (data, none) ∧
        data.length = 12) ∧
    (∀ o : stateVersionLanMessage, ∃ data,
      (o.MarshalBinary : Option (List Byte × Option E)) = some (data, none) ∧
        data.length = 12) ∧
    (∀ o : stateInfoLanMessage, ∃ data,
      (o.MarshalBinary : Option (List Byte × Option E)) = some (data, none) ∧
        data.length = 24) ∧
    (∀ o : echoResponseLanMessage, ∃ data,
      (o.MarshalBinary : Option (List Byte × Option E)) = some (data, none) ∧
        data.length = 64) ∧
    (∀ o : stateLocationLanMessage, ∃ data err,
      o.MarshalBinary Y = some (data, err) ∧ data.length = 56) ∧
    (∀ o : stateGroupLanMessage, ∃ data err,
      o.MarshalBinary Y = some (data, err) ∧ data.length = 56) ∧
    (∀ o : lightStateLanMessage C, ∃ data err,
      o.MarshalBinary Y = some (data, err) ∧ data.length = 44) ∧
    (∀ o : statePowerLanMessage, o.MarshalBinary Y = some (Y.powerMarshal o.Level) ∧
      ((Y.powerMarshal o.Level).1.length = 2 →
        ∃ data err, o.MarshalBinary Y = some (data, err) ∧ data.length = 2)) ∧
    (∀ o : lightStatePowerLanMessage, o.MarshalBinary Y = some (Y.powerMarshal o.Level) ∧
      ((Y.powerMarshal o.Level).1.length = 2 →
        ∃ data err, o.MarshalBinary Y = some (data, err) ∧ data.length = 2)) ∧
    (∀ o : stateLabelLanMessage, o.MarshalBinary Y = some (Y.labelMarshal o.Label) ∧
      ((Y.labelMarshal o.Label).1.length = 32 →
        ∃ data err, o.MarshalBinary Y = some (data, err) ∧ data.length = 32)) := by
  refine ⟨?_, ?_, ?_, ?_, ?_, ?_, ?_, ?_, ?_, ?_, ?_, ?_, ?_, ?_⟩
  · exact fun o => ⟨_, stateService_bytes o, rfl⟩
  · exact fun o => ⟨_, stateHostInfo_bytes o, rfl⟩
  · exact fun o => ⟨_, stateHostFirmware_bytes o, rfl⟩
  · exact fun o => ⟨_, stateWifiInfo_bytes o, rfl⟩
  · exact fun o => ⟨_, stateWifiFirmware_bytes o, rfl⟩
  · exact fun o => ⟨_, stateVersion_bytes o, rfl⟩
  · exact fun o => ⟨_, stateInfo_bytes o, rfl⟩
  · exact fun o => ⟨_, echoResponse_bytes o, o.size⟩
  · intro o
    rw [stateLocation_layout]
    rcases Y.labelMarshal o.Label with ⟨lb, _ | e⟩
    · rcases Y.timeMarshal o.UpdatedAt with ⟨tb, _ | e⟩
      · exact ⟨_, _, rfl, by simp [goCopy_length, makeBytes_length, o.size]⟩
      · exact ⟨_, _, rfl, by simp [goCopy_length, makeBytes_length, o.size]⟩
    · exact ⟨_, _, rfl, by simp [makeBytes_length, o.size]⟩
  · intro o
    rw [stateGroup_layout]
    rcases Y.labelMarshal o.Label with ⟨lb, _ | e⟩
    · rcases Y.timeMarshal o.UpdatedAt with ⟨tb, _ | e⟩
      · exact ⟨_, _, rfl, by simp [goCopy_length, makeBytes_length, o.size]⟩
      · exact ⟨_, _, rfl, by simp [goCopy_length, makeBytes_length, o.size]⟩
    · exact ⟨_, _, rfl, by simp [makeBytes_length, o.size]⟩
  · intro o
    rw [lightState_layout]
    rcases Y.colorMarshal o.Color with ⟨cb, _ | e⟩
    · rcases Y.powerMarshal o.Power with ⟨pb, _ | e⟩
      · rcases Y.labelMarshal o.Label with ⟨lb, _ | e⟩
        · exact ⟨_, _, rfl, by simp [goCopy_length, makeBytes_length]⟩
        · exact ⟨_, _, rfl, by simp [goCopy_length, makeBytes_length]⟩
      · exact ⟨_, _, rfl, by simp [goCopy_length, makeBytes_length]⟩
    · exact ⟨_, _, rfl, by simp [makeBytes_length]⟩
  · exact fun o => ⟨rfl, fun h => ⟨_, _, rfl, h⟩⟩
  · exact fun o => ⟨rfl, fun h => ⟨_, _, rfl, h⟩⟩
  · exact fun o => ⟨rfl, fun h => ⟨_, _, rfl, h⟩⟩

/-- C11 at a `StatePower` with level 65535 and the sample scalar encoders. -/
theorem marshal_fixed_lengths_witness :
    (sampleMarshal.powerMarshal (⟨65535⟩ : statePowerLanMessage).Level).1.length = 2 ∧
    (⟨65535⟩ : statePowerLanMessage).MarshalBinary sampleMarshal = some ([0xFF, 0xFF], none) ∧
    ∃ data err, (⟨65535⟩ : statePowerLanMessage).MarshalBinary sampleMarshal =
      some (data, err) ∧ data.length = 2 :=
  ⟨by decide, by decide,
   ((marshal_fixed_lengths sampleMarshal).2.2.2.2.2.2.2.2.2.2.2.1 ⟨65535⟩).2 (by decide)⟩

/-- C12: whatever the colour, power and label encoders return, bytes 8 and 9 of
the output of `lightStateLanMessage.MarshalBinary` are zero. -/
theorem lightState_reserved_gap_zero {C E : Type} (Y : ControlifxMarshal C E)
    (o : lightStateLanMessage C) (data : List Byte) (err : Option E)
    (h : o.MarshalBinary Y = some (data, err)) :
    data[8]? = some 0 ∧ data[9]? = some 0 := by
  rw [lightState_layout] at h
  have g8 : ∀ b : List Byte, (goCopy (makeBytes 8) b).length = 8 := fun b => by
    rw [goCopy_length, makeBytes_length]
  revert h
  rcases Y.colorMarshal o.Color with ⟨cb, _ | e⟩
  · rcases Y.powerMarshal o.Power with ⟨pb, _ | e⟩
    · rcases Y.labelMarshal o.Label with ⟨lb, _ | e⟩
      · intro h
        cases h
        rw [List.append_assoc _ (goCopy (makeBytes 2) pb)]
        exact gap_zero _ _ (g8 cb)
      · intro h
        cases h
        rw [List.append_assoc _ (goCopy (makeBytes 2) pb)]
        exact gap_zero _ _ (g8 cb)
    · intro h
      cases h
      have e36 : makeBytes 36 = makeBytes 2 ++ makeBytes 34 := by simp [makeBytes]
      rw [e36, ← List.append_assoc]
      exact gap_zero _ _ (g8 cb)
  · intro h
    cases h
    exact ⟨rfl, rfl⟩

/-- C12 at a `LightState` with the sample scalar encoders. -/
theorem lightState_reserved_gap_zero_witness :
    (⟨[258, 772, 1286, 3500], 65535, [0x52, 0x4F, 0x4F, 0x4D]⟩ :
        lightStateLanMessage (List Nat)).MarshalBinary sampleMarshal =
      some ([0x02, 0x01, 0x04, 0x03, 0x06, 0x05, 0xAC, 0x0D, 0x00, 0x00, 0xFF, 0xFF,
        0x52, 0x4F, 0x4F, 0x4D] ++ List.replicate 28 0, none) ∧
    ([0x02, 0x01, 0x04, 0x03, 0x06, 0x05, 0xAC, 0x0D, 0x00, 0x00, 0xFF, 0xFF,
        0x52, 0x4F, 0x4F, 0x4D] ++ List.replicate 28 (0 : Byte))[8]? = some 0 ∧
    ([0x02, 0x01, 0x04, 0x03, 0x06, 0x05, 0xAC, 0x0D, 0x00, 0x00, 0xFF, 0xFF,
        0x52, 0x4F, 0x4F, 0x4D] ++ List.replicate 28 (0 : Byte))[9]? = some 0 :=
  ⟨by decide,
   lightState_reserved_gap_zero sampleMarshal
     ⟨[258, 772, 1286, 3500], 65535, [0x52, 0x4F, 0x4F, 0x4D]⟩ _ none (by decide)⟩

/-- C13: when the colour, power and label encoders succeed with 8, 2 and 32
bytes, `lightStateLanMessage.MarshalBinary` returns the 44 bytes made of the
colour bytes at `[0:8]`, two zero bytes at `[8:10]`, the power bytes at
`[10:12]` and the label bytes at `[12:44]`. -/
theorem lightState_layout_exact {C E : Type} (Y : ControlifxMarshal C E)
    (o : lightStateLanMessage C) (cb pb lb : List Byte)
    (hc : Y.colorMarshal o.Color = (cb, none)) (hp : Y.powerMarshal o.Power = (pb, none))
    (hl : Y.labelMarshal o.Label = (lb, none))
    (hc8 : cb.length = 8) (hp2 : pb.length = 2) (hl32 : lb.length = 32) :
    o.MarshalBinary Y = some (cb ++ [0, 0] ++ pb ++ lb, none) ∧
    (cb ++ [0, 0] ++ pb ++ lb).length = 44 ∧
    (cb ++ [0, 0] ++ pb ++ lb).take 8 = cb ∧
    ((cb ++ [0, 0] ++ pb ++ lb).drop 8).take 2 = [0, 0] ∧
    ((cb ++ [0, 0] ++ pb ++ lb).drop 10).take 2 = pb ∧
    (cb ++ [0, 0] ++ pb ++ lb).drop 12 = lb := by
  refine ⟨?_, ?_, ?_, ?_, ?_, ?_⟩
  · rw [lightState_layout, hc, hp, hl]
    simp only [goCopy_eq_src _ _ (hc8.trans (makeBytes_length 8).symm),
      goCopy_eq_src _ _ (hp2.trans (makeBytes_length 2).symm),
      goCopy_eq_src _ _ (hl32.trans (makeBytes_length 32).symm)]
    rfl
  · simp only [List.length_append, hc8, hp2, hl32, List.length_cons, List.length_nil]
  · rw [List.append_assoc, List.append_assoc, ← hc8]
    exact List.take_left _ _
  · have h8 : (cb ++ [0, 0] ++ pb ++ lb).drop 8 = [0, 0] ++ (pb ++ lb) := by
      rw [List.append_assoc, List.append_assoc, ← hc8]
      exact List.drop_left _ _
    rw [h8]
    rfl
  · have h10 : (cb ++ [0, 0] ++ pb ++ lb).drop 10 = pb ++ lb := by
      have hlen : (cb ++ [0, 0]).length = 10 := by simp [hc8]
      rw [List.append_assoc (cb ++ [0, 0]), ← hlen]
      exact List.drop_left _ _
    rw [h10, ← hp2]
    exact List.take_left _ _
  · have hlen : (cb ++ [0, 0] ++ pb).length = 12 := by simp [hc8, hp2]
    rw [← hlen]
    exact List.drop_left _ _

/-- C13 at a `LightState` with the sample scalar encoders and a 32-byte label. -/
theorem lightState_layout_exact_witness :
    sampleMarshal.colorMarshal [258, 772, 1286, 3500] =
      ([0x02, 0x01, 0x04, 0x03, 0x06, 0x05, 0xAC, 0x0D], none) ∧
    sampleMarshal.powerMarshal 65535 = ([0xFF, 0xFF], none) ∧
    sampleMarshal.labelMarshal (List.replicate 32 0x41) = (List.replicate 32 0x41, none) ∧
    (⟨[258, 772, 1286, 3500], 65535, List.replicate 32 0x41⟩ :
        lightStateLanMessage (List Nat)).MarshalBinary sampleMarshal =
      some ([0x02, 0x01, 0x04, 0x03, 0x06, 0x05, 0xAC, 0x0D] ++ [0, 0] ++ [0xFF, 0xFF] ++
        List.replicate 32 0x41, none) :=
  ⟨by decide, by decide, by decide,
   (lightState_layout_exact sampleMarshal
      ⟨[258, 772, 1286, 3500], 65535, List.replicate 32 0x41⟩
      [0x02, 0x01, 0x04, 0x03, 0x06, 0x05, 0xAC, 0x0D] [0xFF, 0xFF] (List.replicate 32 0x41)
      (by decide) (by decide) (by decide) (by decide) (by decide) (by decide)).1⟩

/-- C14: `stateServiceLanMessage.MarshalBinary` returns no error and five bytes:
byte 0 is the service as one byte, byte `1 + i` is `(port / 256 ^ i) mod 256`;
for a service that fits a byte and a port that fits 32 bits, byte 0 and the
little-endian 32-bit value of bytes `[1:5]` give back service and port, so the
encoding is injective. -/
theorem stateService_encoding {E : Type} :
    (∀ o : stateServiceLanMessage, ∃ b0 b1 b2 b3 b4 : Byte,
      (o.MarshalBinary : Option (List Byte × Option E)) = some ([b0, b1, b2, b3, b4], none) ∧
      b0.val = o.Service % 256 ∧
      b1.val = o.Port / 256 ^ 0 % 256 ∧ b2.val = o.Port / 256 ^ 1 % 256 ∧
      b3.val = o.Port / 256 ^ 2 % 256 ∧ b4.val = o.Port / 256 ^ 3 % 256 ∧
      (o.Service < 256 → o.Port < 2 ^ 32 →
        b0.val = o.Service ∧
        LittleEndian.Uint32 (Slice.ofList [b1, b2, b3, b4]) = some o.Port)) ∧
    (∀ o o' : stateServiceLanMessage,
      o.Service < 256 → o.Port < 2 ^ 32 → o'.Service < 256 → o'.Port < 2 ^ 32 →
      (o.MarshalBinary : Option (List Byte × Option E)) = o'.MarshalBinary → o = o') := by
  refine ⟨fun o => ?_, fun o o' hs hp hs' hp' he => ?_⟩
  · refine ⟨_, _, _, _, _, stateService_bytes o, rfl, ?_, ?_, ?_, ?_, ?_⟩
    · simp only [toByte_val, pow_zero, Nat.div_one]
    · simp only [toByte_val, Nat.shiftRight_eq_div_pow]
      norm_num
    · simp only [toByte_val, Nat.shiftRight_eq_div_pow]
      norm_num
    · simp only [toByte_val, Nat.shiftRight_eq_div_pow]
      norm_num
    · intro hs hp
      exact ⟨by rw [toByte_val]; omega, le32_recover o.Port hp⟩
  · rw [stateService_bytes, stateService_bytes] at he
    simp only [Option.some.injEq, Prod.mk.injEq, List.cons.injEq, and_true] at he
    obtain ⟨e0, e1, e2, e3, e4⟩ := he
    have r := le32_recover o.Port hp
    have r' := le32_recover o'.Port hp'
    rw [e1, e2, e3, e4, r'] at r
    have hport : o'.Port = o.Port := Option.some.inj r
    have hserv : o.Service = o'.Service := by
      have := congrArg Fin.val e0
      simp only [toByte_val] at this
      omega
    cases o
    cases o'
    simp only at hport hserv
    rw [hport, hserv]

/-- C14 at service 1 and port 56700: the bytes are `[1, 0x7C, 0xDD, 0, 0]` and
read back as 1 and 56700. -/
theorem stateService_encoding_witness :
    (⟨1, 56700⟩ : stateServiceLanMessage).Service < 256 ∧
    (⟨1, 56700⟩ : stateServiceLanMessage).Port < 2 ^ 32 ∧
    ((⟨1, 56700⟩ : stateServiceLanMessage).MarshalBinary : Option (List Byte × Option Nat)) =
      some ([1, 0x7C, 0xDD, 0, 0], none) ∧
    LittleEndian.Uint32 (Slice.ofList [0x7C, 0xDD, 0, 0]) = some 56700 ∧
    ∃ b0 b1 b2 b3 b4 : Byte,
      ((⟨1, 56700⟩ : stateServiceLanMessage).MarshalBinary :
        Option (List Byte × Option Nat)) = some ([b0, b1, b2, b3, b4], none) ∧
      b0.val = (⟨1, 56700⟩ : stateServiceLanMessage).Service ∧
      LittleEndian.Uint32 (Slice.ofList [b1, b2, b3, b4]) =
        some (⟨1, 56700⟩ : stateServiceLanMessage).Port :=
  ⟨by decide, by decide, by decide, by decide,
   match (stateService_encoding (E := Nat)).1 ⟨1, 56700⟩ with
   | ⟨b0, b1, b2, b3, b4, h, _, _, _, _, _, hr⟩ =>
     ⟨b0, b1, b2, b3, b4, h, (hr (by decide) (by decide)).1, (hr (by decide) (by decide)).2⟩⟩

/-- C15: `stateInfoLanMessage.MarshalBinary` returns no error and 24 bytes: the
little-endian 8 bytes of the time at `[0:8]`, of the uptime at `[8:16]` and of
the downtime at `[16:24]`, the signed time `t` being written as the unsigned
value `t mod 2^64`, which is `t + 2^64` for a negative `t` and `t` itself
otherwise; the time `-1` gives eight `0xFF` bytes. -/
theorem stateInfo_encoding {E : Type} :
    (∀ o : stateInfoLanMessage, ∃ u : Nat,
      (u : Int) = o.Time % 2 ^ 64 ∧
      (-(2 ^ 63) ≤ o.Time → o.Time < 0 → (u : Int) = o.Time + 2 ^ 64) ∧
      (0 ≤ o.Time → o.Time < 2 ^ 63 → (u : Int) = o.Time) ∧
      (o.MarshalBinary : Option (List Byte × Option E)) =
        some (leBytes 8 u ++ leBytes 8 o.Uptime ++ leBytes 8 o.Downtime, none) ∧
      (leBytes 8 u ++ leBytes 8 o.Uptime ++ leBytes 8 o.Downtime).length = 24) ∧
    (∀ up down : Nat,
      ((⟨-1, up, down⟩ : stateInfoLanMessage).MarshalBinary :
          Option (List Byte × Option E)) =
        some (List.replicate 8 0xFF ++ leBytes 8 up ++ leBytes 8 down, none)) := by
  refine ⟨fun o => ⟨toUint64 o.Time, toUint64_cast _, ?_, ?_, stateInfo_bytes o, ?_⟩,
    fun up down => ?_⟩
  · intro h1 h2
    rw [toUint64_cast]
    omega
  · intro h1 h2
    rw [toUint64_cast]
    omega
  · simp only [List.length_append, leBytes_length]
  · rw [stateInfo_bytes]
    have h : leBytes 8 (toUint64 (-1)) = List.replicate 8 0xFF := by decide
    rw [h]

/-- C15 at time `-2`, uptime 1 and downtime 258. -/
theorem stateInfo_encoding_witness :
    -(2 ^ 63) ≤ (⟨-2, 1, 258⟩ : stateInfoLanMessage).Time ∧
    (⟨-2, 1, 258⟩ : stateInfoLanMessage).Time < 0 ∧
    ((⟨-2, 1, 258⟩ : stateInfoLanMessage).MarshalBinary : Option (List Byte × Option Nat)) =
      some ([0xFE, 0xFF, 0xFF, 0xFF, 0xFF, 0xFF, 0xFF, 0xFF, 1, 0, 0, 0, 0, 0, 0, 0,
        2, 1, 0, 0, 0, 0, 0, 0], none) ∧
    ∃ u : Nat, (u : Int) = (⟨-2, 1, 258⟩ : stateInfoLanMessage).Time + 2 ^ 64 ∧
      ((⟨-2, 1, 258⟩ : stateInfoLanMessage).MarshalBinary : Option (List Byte × Option Nat)) =
        some (leBytes 8 u ++ leBytes 8 1 ++ leBytes 8 258, none) :=
  ⟨by decide, by decide, by decide,
   match (stateInfo_encoding (E := Nat)).1 ⟨-2, 1, 258⟩ with
   | ⟨u, _, hneg, _, h, _⟩ => ⟨u, hneg (by decide) (by decide), h⟩⟩

/-- C16: when the label and time encoders succeed, `stateLocationLanMessage.MarshalBinary`
returns 56 bytes: the 16 location bytes at `[0:16]`, at `[16:48]` the first 32
bytes of the label encoding followed by zeros up to 32 bytes, at `[48:56]` the
first 8 bytes of the time encoding followed by zeros up to 8 bytes; with
encodings of exactly 32 and 8 bytes the result is location, label encoding and
time encoding one after the other. -/
theorem stateLocation_layout_exact {C E : Type} (Y : ControlifxMarshal C E)
    (o : stateLocationLanMessage) (lb tb : List Byte)
    (hl : Y.labelMarshal o.Label = (lb, none)) (ht : Y.timeMarshal o.UpdatedAt = (tb, none)) :
    (lb.length = 32 → tb.length = 8 →
      o.MarshalBinary Y = some (o.Location ++ lb ++ tb, none)) ∧
    ∃ data : List Byte, o.MarshalBinary Y = some (data, none) ∧
      data.length = 56 ∧
      data.take 16 = o.Location ∧
      (data.drop 16).take 32 = lb.take 32 ++ List.replicate (32 - lb.length) 0 ∧
      data.drop 48 = tb.take 8 ++ List.replicate (8 - tb.length) 0 := by
  have hlay : o.MarshalBinary Y =
      some (o.Location ++ goCopy (makeBytes 32) lb ++ goCopy (makeBytes 8) tb, none) := by
    rw [stateLocation_layout, hl, ht]
  have g32 : (goCopy (makeBytes 32) lb).length = 32 := by
    rw [goCopy_length, makeBytes_length]
  have g8 : (goCopy (makeBytes 8) tb).length = 8 := by
    rw [goCopy_length, makeBytes_length]
  refine ⟨fun h32 h8 => ?_, _, hlay, ?_, ?_, ?_, ?_⟩
  · rw [hlay, goCopy_eq_src _ _ (h32.trans (makeBytes_length 32).symm),
      goCopy_eq_src _ _ (h8.trans (makeBytes_length 8).symm)]
  · simp only [List.length_append, o.size, g32, g8]
  · rw [List.append_assoc, ← o.size]
    exact List.take_left _ _
  · have hd : (o.Location ++ goCopy (makeBytes 32) lb ++ goCopy (makeBytes 8) tb).drop 16 =
        goCopy (makeBytes 32) lb ++ goCopy (makeBytes 8) tb := by
      rw [List.append_assoc, ← o.size]
      exact List.drop_left _ _
    rw [hd, ← goCopy_makeBytes]
    exact take_append_len _ _ 32 g32
  · have hlen : (o.Location ++ goCopy (makeBytes 32) lb).length = 48 := by
      simp only [List.length_append, o.size, g32]
    rw [← goCopy_makeBytes]
    exact drop_append_len _ _ 48 hlen

/-- C16 at a location with a 34-byte label encoding and a 3-byte time encoding:
the label is cut to 32 bytes, the time range is padded with zeros. -/
theorem stateLocation_layout_exact_witness :
    (⟨fun _ => ([], none), fun _ => (List.replicate 34 0x41, none), fun _ => ([], none),
        fun _ => ([1, 2, 3], none)⟩ : ControlifxMarshal Nat Nat).labelMarshal [] =
      (List.replicate 34 0x41, none) ∧
    (⟨fun _ => ([], none), fun _ => (List.replicate 34 0x41, none), fun _ => ([], none),
        fun _ => ([1, 2, 3], none)⟩ : ControlifxMarshal Nat Nat).timeMarshal 0 =
      ([1, 2, 3], none) ∧
    (⟨List.replicate 16 7, by decide, [], 0⟩ : stateLocationLanMessage).MarshalBinary
        (⟨fun _ => ([], none), fun _ => (List.replicate 34 0x41, none), fun _ => ([], none),
          fun _ => ([1, 2, 3], none)⟩ : ControlifxMarshal Nat Nat) =
      some (List.replicate 16 7 ++ List.replicate 32 0x41 ++ [1, 2, 3, 0, 0, 0, 0, 0], none) ∧
    ∃ data : List Byte,
      (⟨List.replicate 16 7, by decide, [], 0⟩ : stateLocationLanMessage).MarshalBinary
        (⟨fun _ => ([], none), fun _ => (List.replicate 34 0x41, none), fun _ => ([], none),
          fun _ => ([1, 2, 3], none)⟩ : ControlifxMarshal Nat Nat) = some (data, none) ∧
      data.length = 56 :=
  ⟨rfl, rfl, by decide,
   match (stateLocation_layout_exact
      (⟨fun _ => ([], none), fun _ => (List.replicate 34 0x41, none), fun _ => ([], none),
        fun _ => ([1, 2, 3], none)⟩ : ControlifxMarshal Nat Nat)
      ⟨List.replicate 16 7, by decide, [], 0⟩ (List.replicate 34 0x41) [1, 2, 3] rfl rfl).2 with
   | ⟨data, h, hlen, _⟩ => ⟨data, h, hlen⟩⟩

/-- C17: the twin encoders agree byte for byte: StateWifiInfo with StateHostInfo
(the bit pattern of the signal at `[0:4]`, tx at `[4:8]`, rx at `[8:12]`, each
little-endian), StateWifiFirmware with StateHostFirmware (build at `[0:8]`,
version at `[8:12]`), and StateGroup with the StateLocation of the same fields,
in bytes and in error. -/
theorem twin_encoders_agree {C E : Type} (Y : ControlifxMarshal C E) :
    (∀ signal tx rx : Nat,
      ((⟨signal, tx, rx⟩ : stateWifiInfoLanMessage).MarshalBinary :
          Option (List Byte × Option E)) =
        (⟨signal, tx, rx⟩ : stateHostInfoLanMessage).MarshalBinary ∧
      ((⟨signal, tx, rx⟩ : stateHostInfoLanMessage).MarshalBinary :
          Option (List Byte × Option E)) =
        some (leBytes 4 signal ++ leBytes 4 tx ++ leBytes 4 rx, none)) ∧
    (∀ build version : Nat,
      ((⟨build, version⟩ : stateWifiFirmwareLanMessage).MarshalBinary :
          Option (List Byte × Option E)) =
        (⟨build, version⟩ : stateHostFirmwareLanMessage).MarshalBinary ∧
      ((⟨build, version⟩ : stateHostFirmwareLanMessage).MarshalBinary :
          Option (List Byte × Option E)) =
        some (leBytes 8 build ++ leBytes 4 version, none)) ∧
    (∀ o : stateGroupLanMessage,
      o.MarshalBinary Y =
        (⟨o.Group, o.size, o.Label, o.UpdatedAt⟩ : stateLocationLanMessage).MarshalBinary Y) := by
  refine ⟨fun signal tx rx => ⟨?_, ?_⟩, fun build version => ⟨?_, ?_⟩, fun o => ?_⟩
  · rw [stateWifiInfo_bytes, stateHostInfo_bytes]
  · rw [stateHostInfo_bytes, ← le4, ← le4, ← le4]
    rfl
  · rw [stateWifiFirmware_bytes, stateHostFirmware_bytes]
  · rw [stateHostFirmware_bytes, ← le8, ← le4]
    rfl
  · rw [stateGroup_layout, stateLocation_layout]

/-- C18: decoding then encoding gives back the input bytes: for a buffer `x` of
at least 64 bytes, the EchoResponse built from the payload that EchoRequest
decodes from `x` encodes to `x[0:64]`; and when the PowerLevel encoder writes a
16-bit level as its two little-endian bytes, for a 2-byte buffer `x` the
StatePower and the LightStatePower built from the level that SetPower decodes
from `x` encode to `x`. -/
theorem decode_encode_round_trip {C E : Type} (Y : ControlifxMarshal C E) :
    (∀ (o : echoRequestLanMessage) (x : Slice), 64 ≤ x.len →
      ∃ m : echoRequestLanMessage,
        (o.UnmarshalBinary x : Outcome echoRequestLanMessage (Error E)) = .returned m none ∧
        ((⟨m.Payload, m.size⟩ : echoResponseLanMessage).MarshalBinary :
            Option (List Byte × Option E)) = some (x.elems.take 64, none)) ∧
    ((∀ v : Nat, v < 65536 → Y.powerMarshal v = (leBytes 2 v, none)) →
      ∀ (o : setPowerLanMessage) (x : Slice), x.len = 2 →
        ∃ m : setPowerLanMessage,
          (o.UnmarshalBinary x : Outcome setPowerLanMessage (Error E)) = .returned m none ∧
          (⟨m.Level⟩ : statePowerLanMessage).MarshalBinary Y = some (x.elems, none) ∧
          (⟨m.Level⟩ : lightStatePowerLanMessage).MarshalBinary Y = some (x.elems, none)) := by
  refine ⟨fun o x h => ?_, fun hY o x h => ?_⟩
  · obtain ⟨m, hm, hd⟩ := echoRequest_of_len (E := E) o x h
    refine ⟨m, hd, ?_⟩
    rw [echoResponse_bytes]
    simp only [hm]
  · obtain ⟨_ | ⟨b0, _ | ⟨b1, _ | ⟨b2, tl⟩⟩⟩, sp⟩ := x
    all_goals try (simp [Slice.len] at h; done)
    have hb0 := b0.isLt
    have hb1 := b1.isLt
    refine ⟨_, setPower_cons o b0 b1 [] sp, ?_, ?_⟩
    · simp only [statePowerLanMessage.MarshalBinary]
      rw [hY _ (by omega), leBytes_two]
    · simp only [lightStatePowerLanMessage.MarshalBinary]
      rw [hY _ (by omega), leBytes_two]

/-- C18 at the buffers `[0xFF, 0xFF]` (level 65535) with the sample PowerLevel
encoder. -/
theorem decode_encode_round_trip_witness :
    (∀ v : Nat, v < 65536 → sampleMarshal.powerMarshal v = (leBytes 2 v, none)) ∧
    (Slice.ofList [0xFF, 0xFF]).len = 2 ∧
    ((⟨0⟩ : setPowerLanMessage).UnmarshalBinary (Slice.ofList [0xFF, 0xFF]) :
        Outcome setPowerLanMessage (Error Nat)) = .returned ⟨65535⟩ none ∧
    (⟨65535⟩ : statePowerLanMessage).MarshalBinary sampleMarshal = some ([0xFF, 0xFF], none) ∧
    ∃ m : setPowerLanMessage,
      ((⟨0⟩ : setPowerLanMessage).UnmarshalBinary (Slice.ofList [0xFF, 0xFF]) :
          Outcome setPowerLanMessage (Error Nat)) = .returned m none ∧
      (⟨m.Level⟩ : statePowerLanMessage).MarshalBinary sampleMarshal =
        some ((Slice.ofList [0xFF, 0xFF]).elems, none) ∧
      (⟨m.Level⟩ : lightStatePowerLanMessage).MarshalBinary sampleMarshal =
        some ((Slice.ofList [0xFF, 0xFF]).elems, none) :=
  ⟨fun _ _ => rfl, by decide, by decide, by decide,
   (decode_encode_round_trip sampleMarshal).2 (fun _ _ => rfl) ⟨0⟩
     (Slice.ofList [0xFF, 0xFF]) (by decide)⟩

/-- C19: encoding fails only through a scalar encoder: the eight plain encoders
return no error; StatePower, LightStatePower and StateLabel return exactly what
the PowerLevel or Label encoder returns; StateLocation and StateGroup return an
error exactly when the label or the time encoder fails, LightState exactly when
the colour, power or label encoder fails, the error being that of the first
failing encoder in layout order, and the result does not depend on the encoders
that come after the failing one. -/
theorem marshal_errors_from_scalars {C E : Type} (Y : ControlifxMarshal C E) :
    (∀ o : stateServiceLanMessage, ∃ data,
      (o.MarshalBinary : Option (List Byte × Option E)) = some (data, none)) ∧
    (∀ o : stateHostInfoLanMessage, ∃ data,
      (o.MarshalBinary : Option (List Byte × Option E)) = some (data, none)) ∧
    (∀ o : stateHostFirmwareLanMessage, ∃ data,
      (o.MarshalBinary : Option (List Byte × Option E)) = some (data, none)) ∧
    (∀ o : stateWifiInfoLanMessage, ∃ data,
      (o.MarshalBinary : Option (List Byte × Option E)) = some (data, none)) ∧
    (∀ o : stateWifiFirmwareLanMessage, ∃ data,
      (o.MarshalBinary : Option (List Byte × Option E)) = some (data, none)) ∧
    (∀ o : stateVersionLanMessage, ∃ data,
      (o.MarshalBinary : Option (List Byte × Option E)) = some (data, none)) ∧
    (∀ o : stateInfoLanMessage, ∃ data,
      (o.MarshalBinary : Option (List Byte × Option E)) = some (data, none)) ∧
    (∀ o : echoResponseLanMessage, ∃ data,
      (o.MarshalBinary : Option (List Byte × Option E)) = some (data, none)) ∧
    (∀ o : statePowerLanMessage, o.MarshalBinary Y = some (Y.powerMarshal o.Level)) ∧
    (∀ o : lightStatePowerLanMessage, o.MarshalBinary Y = some (Y.powerMarshal o.Level)) ∧
    (∀ o : stateLabelLanMessage, o.MarshalBinary Y = some (Y.labelMarshal o.Label)) ∧
    (∀ o : stateLocationLanMessage,
      (∃ data err, o.MarshalBinary Y = some (data, err) ∧
        (err ≠ none ↔
          (Y.labelMarshal o.Label).2 ≠ none ∨ (Y.timeMarshal o.UpdatedAt).2 ≠ none) ∧
        (∀ e, (Y.labelMarshal o.Label).2 = some e → err = some e) ∧
        ((Y.labelMarshal o.Label).2 = none → err = (Y.timeMarshal o.UpdatedAt).2)) ∧
      (∀ Z : ControlifxMarshal C E, Z.labelMarshal = Y.labelMarshal →
        (Y.labelMarshal o.Label).2 ≠ none → o.MarshalBinary Z = o.MarshalBinary Y)) ∧
    (∀ o : stateGroupLanMessage,
      (∃ data err, o.MarshalBinary Y = some (data, err) ∧
        (err ≠ none ↔
          (Y.labelMarshal o.Label).2 ≠ none ∨ (Y.timeMarshal o.UpdatedAt).2 ≠ none) ∧
        (∀ e, (Y.labelMarshal o.Label).2 = some e → err = some e) ∧
        ((Y.labelMarshal o.Label).2 = none → err = (Y.timeMarshal o.UpdatedAt).2)) ∧
      (∀ Z : ControlifxMarshal C E, Z.labelMarshal = Y.labelMarshal →
        (Y.labelMarshal o.Label).2 ≠ none → o.MarshalBinary Z = o.MarshalBinary Y)) ∧
    (∀ o : lightStateLanMessage C,
      (∃ data err, o.MarshalBinary Y = some (data, err) ∧
        (err ≠ none ↔
          (Y.colorMarshal o.Color).2 ≠ none ∨ (Y.powerMarshal o.Power).2 ≠ none ∨
            (Y.labelMarshal o.Label).2 ≠ none) ∧
        (∀ e, (Y.colorMarshal o.Color).2 = some e → err = some e) ∧
        ((Y.colorMarshal o.Color).2 = none →
          ∀ e, (Y.powerMarshal o.Power).2 = some e → err = some e) ∧
        ((Y.colorMarshal o.Color).2 = none → (Y.powerMarshal o.Power).2 = none →
          err = (Y.labelMarshal o.Label).2)) ∧
      (∀ Z : ControlifxMarshal C E, Z.colorMarshal = Y.colorMarshal →
        (Y.colorMarshal o.Color).2 ≠ none → o.MarshalBinary Z = o.MarshalBinary Y) ∧
      (∀ Z : ControlifxMarshal C E, Z.colorMarshal = Y.colorMarshal →
        Z.powerMarshal = Y.powerMarshal → (Y.colorMarshal o.Color).2 = none →
        (Y.powerMarshal o.Power).2 ≠ none → o.MarshalBinary Z = o.MarshalBinary Y)) := by
  refine ⟨?_, ?_, ?_, ?_, ?_, ?_, ?_, ?_, ?_, ?_, ?_, ?_, ?_, ?_⟩
  · exact fun o => ⟨_, stateService_bytes o⟩
  · exact fun o => ⟨_, stateHostInfo_bytes o⟩
  · exact fun o => ⟨_, stateHostFirmware_bytes o⟩
  · exact fun o => ⟨_, stateWifiInfo_bytes o⟩
  · exact fun o => ⟨_, stateWifiFirmware_bytes o⟩
  · exact fun o => ⟨_, stateVersion_bytes o⟩
  · exact fun o => ⟨_, stateInfo_bytes o⟩
  · exact fun o => ⟨_, echoResponse_bytes o⟩
  · exact fun o => rfl
  · exact fun o => rfl
  · exact fun o => rfl
  · intro o
    refine ⟨?_, fun Z hZ hne => ?_⟩
    · rw [stateLocation_layout]
      rcases Y.labelMarshal o.Label with ⟨lb, _ | e⟩
      · rcases Y.timeMarshal o.UpdatedAt with ⟨tb, _ | e⟩
        · exact ⟨_, _, rfl, by simp, by simp, by simp⟩
        · exact ⟨_, _, rfl, by simp, by simp, by simp⟩
      · exact ⟨_, _, rfl, by simp, by simp, by simp⟩
    · rw [stateLocation_layout, stateLocation_layout, hZ]
      revert hne
      rcases Y.labelMarshal o.Label with ⟨lb, _ | e⟩
      · intro hne
        exact absurd rfl hne
      · intro _
        rfl
  · intro o
    refine ⟨?_, fun Z hZ hne => ?_⟩
    · rw [stateGroup_layout]
      rcases Y.labelMarshal o.Label with ⟨lb, _ | e⟩
      · rcases Y.timeMarshal o.UpdatedAt with ⟨tb, _ | e⟩
        · exact ⟨_, _, rfl, by simp, by simp, by simp⟩
        · exact ⟨_, _, rfl, by simp, by simp, by simp⟩
      · exact ⟨_, _, rfl, by simp, by simp, by simp⟩
    · rw [stateGroup_layout, stateGroup_layout, hZ]
      revert hne
      rcases Y.labelMarshal o.Label with ⟨lb, _ | e⟩
      · intro hne
        exact absurd rfl hne
      · intro _
        rfl
  · intro o
    refine ⟨?_, fun Z hZ hne => ?_, fun Z hZ hZp hc hne => ?_⟩
    · rw [lightState_layout]
      rcases Y.colorMarshal o.Color with ⟨cb, _ | e⟩
      · rcases Y.powerMarshal o.Power with ⟨pb, _ | e⟩
        · rcases Y.labelMarshal o.Label with ⟨lb, _ | e⟩
          · exact ⟨_, _, rfl, by simp, by simp, by simp, by simp⟩
          · exact ⟨_, _, rfl, by simp, by simp, by simp, by simp⟩
        · exact ⟨_, _, rfl, by simp, by simp, by simp, by simp⟩
      · exact ⟨_, _, rfl, by simp, by simp, by simp, by simp⟩
    · rw [lightState_layout, lightState_layout, hZ]
      revert hne
      rcases Y.colorMarshal o.Color with ⟨cb, _ | e⟩
      · intro hne
        exact absurd rfl hne
      · intro _
        rfl
    · rw [lightState_layout, lightState_layout, hZ, hZp]
      revert hc hne
      rcases Y.colorMarshal o.Color with ⟨cb, _ | e⟩
      · rcases Y.powerMarshal o.Power with ⟨pb, _ | e⟩
        · intro _ hne
          exact absurd rfl hne
        · intro _ _
          rfl
      · intro hc
        exact absurd hc (by simp)

/-- C19 at a `StateLocation` whose time is negative, which the sample time
encoder refuses with error `4`, the label encoder having succeeded. -/
theorem marshal_errors_from_scalars_witness :
    (sampleMarshal.labelMarshal [0x52, 0x4F]).2 = none ∧
    (sampleMarshal.timeMarshal (-5)).2 = some 4 ∧
    (⟨List.replicate 16 7, by decide, [0x52, 0x4F], -5⟩ :
        stateLocationLanMessage).MarshalBinary sampleMarshal =
      some (List.replicate 16 7 ++ [0x52, 0x4F] ++ List.replicate 38 0, some 4) ∧
    ∃ data err, (⟨List.replicate 16 7, by decide, [0x52, 0x4F], -5⟩ :
        stateLocationLanMessage).MarshalBinary sampleMarshal = some (data, err) ∧
      err = (sampleMarshal.timeMarshal (-5)).2 :=
  ⟨by decide, by decide, by decide,
   match ((marshal_errors_from_scalars sampleMarshal).2.2.2.2.2.2.2.2.2.2.2.1
      ⟨List.replicate 16 7, by decide, [0x52, 0x4F], -5⟩).1 with
   | ⟨data, err, h, _, _, hn⟩ => ⟨data, err, h, hn (by decide)⟩⟩

/-! ## Bounds -/

/-- C20 as stated fails. A one-byte buffer with a second byte of capacity is
shorter than SetPower's two bytes, yet `data[:2]` is in range and the decoder
returns level `0x1234` without a bounds failure. And a four-byte LightSetPower
buffer without spare capacity does end in the bounds failure, but `Level` has
been decoded (513) and is in the receiver when `data[2:6]` fails. -/
theorem short_buffer_without_bounds_failure :
    (⟨[0x34], [0x12]⟩ : Slice).len < 2 ∧
    ((⟨0⟩ : setPowerLanMessage).UnmarshalBinary ⟨[0x34], [0x12]⟩ :
        Outcome setPowerLanMessage (Error Nat)) = .returned ⟨0x1234⟩ none ∧
    ¬ (∀ (o : setPowerLanMessage) (data : Slice), data.len < 2 →
        ∃ s, (o.UnmarshalBinary data : Outcome setPowerLanMessage (Error Nat)) =
          .panicked s) ∧
    (Slice.ofList [1, 2, 3, 4]).len < 6 ∧
    ((⟨0, 2⟩ : lightSetPowerLanMessage).UnmarshalBinary (Slice.ofList [1, 2, 3, 4]) :
        Outcome lightSetPowerLanMessage (Error Nat)) = .panicked ⟨513, 2⟩ ∧
    ¬ (∀ (o : lightSetPowerLanMessage) (data : Slice), data.len < 6 →
        (o.UnmarshalBinary data : Outcome lightSetPowerLanMessage (Error Nat)) =
          .panicked o) := by
  refine ⟨by decide, by decide, fun hall => ?_, by decide, by decide, fun hall => ?_⟩
  · obtain ⟨s, hs⟩ := hall ⟨0⟩ ⟨[0x34], [0x12]⟩ (by decide)
    have he : ((⟨0⟩ : setPowerLanMessage).UnmarshalBinary ⟨[0x34], [0x12]⟩ :
        Outcome setPowerLanMessage (Error Nat)) = .returned ⟨0x1234⟩ none := by decide
    rw [he] at hs
    cases hs
  · have h := hall ⟨0, 2⟩ (Slice.ofList [1, 2, 3, 4]) (by decide)
    revert h
    decide

/-- C20, amended. On a buffer at least as long as the variant's fixed length
(SetPower 2, SetLabel 32, EchoRequest 64, LightSetColor 13, LightSetPower 6)
each request decoder returns without a bounds failure and its outcome does not
depend on anything beyond the buffer's length. On a buffer whose capacity is
below the fixed length no decoder returns without error: SetPower, SetLabel and
EchoRequest end in the bounds failure with the receiver unchanged; LightSetPower
ends in the bounds failure, the receiver unchanged for a capacity below 2, and
with `Level` set from the first two bytes and `Duration` unchanged for a
capacity of 2 to 5; LightSetColor ends in the bounds failure with the receiver
unchanged for a capacity below 9, and for a capacity of 9 to 12 it runs the
colour decoder on `data[1:9]` and returns that decoder's error, `Duration`
unchanged, when it fails, and otherwise ends in the bounds failure with `Color`
set and `Duration` unchanged. -/
theorem bounds_contract {H C E : Type} (X : Controlifx H C E) :
    (∀ (o : setPowerLanMessage) (data : Slice), 2 ≤ data.len →
      (∃ m err, (o.UnmarshalBinary data : Outcome (setPowerLanMessage) (Error E)) = .returned m err) ∧
      ∀ sp : List Byte,
        (o.UnmarshalBinary ⟨data.elems, sp⟩ : Outcome (setPowerLanMessage) (Error E)) =
          o.UnmarshalBinary data) ∧
    (∀ (o : setLabelLanMessage) (data : Slice), 32 ≤ data.len →
      (∃ m err, (o.UnmarshalBinary data : Outcome (setLabelLanMessage) (Error E)) = .returned m err) ∧
      ∀ sp : List Byte,
        (o.UnmarshalBinary ⟨data.elems, sp⟩ : Outcome (setLabelLanMessage) (Error E)) =
          o.UnmarshalBinary data) ∧
    (∀ (o : echoRequestLanMessage) (data : Slice), 64 ≤ data.len →
      (∃ m err, (o.UnmarshalBinary data : Outcome (echoRequestLanMessage) (Error E)) = .returned m err) ∧
      ∀ sp : List Byte,
        (o.UnmarshalBinary ⟨data.elems, sp⟩ : Outcome (echoRequestLanMessage) (Error E)) =
          o.UnmarshalBinary data) ∧
    (∀ (o : lightSetColorLanMessage C) (data : Slice), 13 ≤ data.len →
      (∃ m err, (o.UnmarshalBinary X data : Outcome (lightSetColorLanMessage C) (Error E)) = .returned m err) ∧
      ∀ sp : List Byte,
        (o.UnmarshalBinary X ⟨data.elems, sp⟩ : Outcome (lightSetColorLanMessage C) (Error E)) =
          o.UnmarshalBinary X data) ∧
    (∀ (o : lightSetPowerLanMessage) (data : Slice), 6 ≤ data.len →
      (∃ m err, (o.UnmarshalBinary data : Outcome (lightSetPowerLanMessage) (Error E)) = .returned m err) ∧
      ∀ sp : List Byte,
        (o.UnmarshalBinary ⟨data.elems, sp⟩ : Outcome (lightSetPowerLanMessage) (Error E)) =
          o.UnmarshalBinary data) ∧
    (∀ (o : setPowerLanMessage) (data : Slice), data.cap < 2 →
      (o.UnmarshalBinary data : Outcome setPowerLanMessage (Error E)) = .panicked o) ∧
    (∀ (o : setLabelLanMessage) (data : Slice), data.cap < 32 →
      (o.UnmarshalBinary data : Outcome setLabelLanMessage (Error E)) = .panicked o) ∧
    (∀ (o : echoRequestLanMessage) (data : Slice), data.cap < 64 →
      (o.UnmarshalBinary data : Outcome echoRequestLanMessage (Error E)) = .panicked o) ∧
    (∀ (o : lightSetPowerLanMessage) (data : Slice), data.cap < 6 →
      (data.cap < 2 →
        (o.UnmarshalBinary data : Outcome lightSetPowerLanMessage (Error E)) = .panicked o) ∧
      (2 ≤ data.cap → ∃ b0 b1 : Byte, data.backing.take 2 = [b0, b1] ∧
        (o.UnmarshalBinary data : Outcome lightSetPowerLanMessage (Error E)) =
          .panicked ⟨b0.val + 256 * b1.val, o.Duration⟩) ∧
      ∀ m, (o.UnmarshalBinary data : Outcome lightSetPowerLanMessage (Error E)) ≠
        .returned m none) ∧
    (∀ (o : lightSetColorLanMessage C) (data : Slice), data.cap < 13 →
      (data.cap < 9 → o.UnmarshalBinary X data = .panicked o) ∧
      (9 ≤ data.cap →
        (∀ (c : C) (e : E),
          X.colorUnmarshal o.Color ((data.backing.take 9).drop 1) = (c, some e) →
          o.UnmarshalBinary X data = .returned ⟨c, o.Duration⟩ (some (.external e))) ∧
        (∀ c : C,
          X.colorUnmarshal o.Color ((data.backing.take 9).drop 1) = (c, none) →
          o.UnmarshalBinary X data = .panicked ⟨c, o.Duration⟩)) ∧
      ∀ m, o.UnmarshalBinary X data ≠ .returned m none) := by
  refine ⟨?_, ?_, ?_, ?_, ?_, ?_, ?_, ?_, ?_, ?_⟩
  · intro o data h
    obtain ⟨b0, b1, -, hd⟩ := setPower_of_take (E := E) o data h
    exact ⟨⟨_, _, hd⟩, fun sp => setPower_congr o data ⟨data.elems, sp⟩ h h rfl⟩
  · intro o data h
    exact ⟨⟨_, _, setLabel_of_len o data h⟩,
      fun sp => setLabel_congr o data ⟨data.elems, sp⟩ h h rfl⟩
  · intro o data h
    obtain ⟨m, -, hd⟩ := echoRequest_of_len (E := E) o data h
    exact ⟨⟨_, _, hd⟩, fun sp => echoRequest_congr o data ⟨data.elems, sp⟩ h h rfl⟩
  · intro o data h
    exact ⟨lightSetColor_returns X o data h,
      fun sp => lightSetColor_congr X o data ⟨data.elems, sp⟩ h h rfl⟩
  · intro o data h
    obtain ⟨b0, b1, d0, d1, d2, d3, -, hd⟩ := lightSetPower_of_len (E := E) o data h
    exact ⟨⟨_, _, hd⟩, fun sp => lightSetPower_congr o data ⟨data.elems, sp⟩ h h rfl⟩
  · intro o data h
    simp only [setPowerLanMessage.UnmarshalBinary, Slice.sliceTo,
      Slice.slice_of_cap_lt data 0 2 h]
  · intro o data h
    simp only [setLabelLanMessage.UnmarshalBinary, Slice.sliceTo,
      Slice.slice_of_cap_lt data 0 32 h]
  · intro o data h
    simp only [echoRequestLanMessage.UnmarshalBinary, Slice.sliceTo,
      Slice.slice_of_cap_lt data 0 64 h]
  · intro o data h
    have h6 := Slice.slice_of_cap_lt data 2 6 h
    have low : data.cap < 2 →
        (o.UnmarshalBinary data : Outcome lightSetPowerLanMessage (Error E)) =
          .panicked o := fun h2 => by
      simp only [lightSetPowerLanMessage.UnmarshalBinary, Slice.sliceTo,
        Slice.slice_of_cap_lt data 0 2 h2]
    have high : 2 ≤ data.cap → ∃ b0 b1 : Byte, data.backing.take 2 = [b0, b1] ∧
        (o.UnmarshalBinary data : Outcome lightSetPowerLanMessage (Error E)) =
          .panicked ⟨b0.val + 256 * b1.val, o.Duration⟩ := fun h2 => by
      have hlen := Slice.backing_length data
      have hs := Slice.slice_of_le_cap data 0 2 (by omega) h2
      rcases hb : data.backing with _ | ⟨b0, _ | ⟨b1, tl⟩⟩
      · rw [hb] at hlen
        simp only [List.length_nil] at hlen
        omega
      · rw [hb] at hlen
        simp only [List.length_cons, List.length_nil] at hlen
        omega
      · rw [hb] at hs
        simp only [List.take_succ_cons, List.take_zero, List.drop_zero,
          List.drop_succ_cons] at hs
        refine ⟨b0, b1, rfl, ?_⟩
        simp only [lightSetPowerLanMessage.UnmarshalBinary, Slice.sliceTo, hs, Uint16_cons, h6]
    refine ⟨low, high, fun m hm => ?_⟩
    by_cases h2 : data.cap < 2
    · rw [low h2] at hm
      cases hm
    · obtain ⟨b0, b1, -, hp⟩ := high (by omega)
      rw [hp] at hm
      cases hm
  · intro o data h
    have h13 := Slice.slice_of_cap_lt data 9 13 h
    have low : data.cap < 9 → o.UnmarshalBinary X data = .panicked o := fun h9 => by
      simp only [lightSetColorLanMessage.UnmarshalBinary, Slice.slice_of_cap_lt data 1 9 h9]
    have herr : 9 ≤ data.cap → ∀ (c : C) (e : E),
        X.colorUnmarshal o.Color ((data.backing.take 9).drop 1) = (c, some e) →
        o.UnmarshalBinary X data = .returned ⟨c, o.Duration⟩ (some (.external e)) :=
      fun h9 c e hc => by
        simp only [lightSetColorLanMessage.UnmarshalBinary,
          Slice.slice_of_le_cap data 1 9 (by omega) h9, hc]
    have hok : 9 ≤ data.cap → ∀ c : C,
        X.colorUnmarshal o.Color ((data.backing.take 9).drop 1) = (c, none) →
        o.UnmarshalBinary X data = .panicked ⟨c, o.Duration⟩ :=
      fun h9 c hc => by
        simp only [lightSetColorLanMessage.UnmarshalBinary,
          Slice.slice_of_le_cap data 1 9 (by omega) h9, hc, h13]
    refine ⟨low, fun h9 => ⟨herr h9, hok h9⟩, fun m hm => ?_⟩
    by_cases h9 : data.cap < 9
    · rw [low h9] at hm
      cases hm
    · rcases hc : X.colorUnmarshal o.Color ((data.backing.take 9).drop 1) with ⟨c, e⟩
      cases e with
      | none =>
        rw [hok (by omega) c hc] at hm
        cases hm
      | some e =>
        rw [herr (by omega) c e hc] at hm
        cases hm

/-- C20 amended, at a two-byte SetPower buffer with spare capacity (returns, the
spare byte ignored), at a four-byte LightSetPower buffer (bounds failure with
`Level` set to 513) and at a ten-byte LightSetColor buffer whose colour the
sample codec refuses (that error is returned). -/
theorem bounds_contract_witness :
    2 ≤ (⟨[0x34, 0x12], [0xAA]⟩ : Slice).len ∧
    (Slice.ofList [1, 2, 3, 4]).cap < 6 ∧ 2 ≤ (Slice.ofList [1, 2, 3, 4]).cap ∧
    (Slice.ofList [0, 1, 2, 3, 4, 5, 6, 0, 0, 9]).cap < 13 ∧
    9 ≤ (Slice.ofList [0, 1, 2, 3, 4, 5, 6, 0, 0, 9]).cap ∧
    sample.colorUnmarshal [0, 0, 0, 0]
        (((Slice.ofList [0, 1, 2, 3, 4, 5, 6, 0, 0, 9]).backing.take 9).drop 1) =
      ([0, 0, 0, 0], some 1) ∧
    (∃ m err, ((⟨0⟩ : setPowerLanMessage).UnmarshalBinary ⟨[0x34, 0x12], [0xAA]⟩ :
        Outcome setPowerLanMessage (Error Nat)) = .returned m err) ∧
    (∃ b0 b1 : Byte, (Slice.ofList [1, 2, 3, 4]).backing.take 2 = [b0, b1] ∧
      ((⟨0, 2⟩ : lightSetPowerLanMessage).UnmarshalBinary (Slice.ofList [1, 2, 3, 4]) :
          Outcome lightSetPowerLanMessage (Error Nat)) =
        .panicked ⟨b0.val + 256 * b1.val, 2⟩) ∧
    (⟨[0, 0, 0, 0], 5⟩ : lightSetColorLanMessage (List Nat)).UnmarshalBinary sample
        (Slice.ofList [0, 1, 2, 3, 4, 5, 6, 0, 0, 9]) =
      .returned ⟨[0, 0, 0, 0], 5⟩ (some (.external 1)) :=
  ⟨by decide, by decide, by decide, by decide, by decide, by decide,
   ((bounds_contract sample).1 ⟨0⟩ ⟨[0x34, 0x12], [0xAA]⟩ (by decide)).1,
   ((bounds_contract (E := Nat) sample).2.2.2.2.2.2.2.2.1 ⟨0, 2⟩ (Slice.ofList [1, 2, 3, 4])
      (by decide)).2.1 (by decide),
   (((bounds_contract sample).2.2.2.2.2.2.2.2.2 ⟨[0, 0, 0, 0], 5⟩
      (Slice.ofList [0, 1, 2, 3, 4, 5, 6, 0, 0, 9]) (by decide)).2.1 (by decide)).1
      [0, 0, 0, 0] 1 (by decide)⟩

end server
